import Mathlib

/-!
# nvim/uv.c : event loop and stream lifetime

A shallow embedding of `src/nvim/uv.c` (the Lua 5.1 binding over libuv) and
theorems about its reference counting, its close path, its argument checks and
its read path.

Modelling conventions
* `UVLoop` and `UVStream` carry the fields of the C structs that the functions
  below read or write.  `refcount` is a natural number: the C `int` is only
  ever incremented, or decremented behind `assert(refcount)`.
* Memory is `State`: the loop and one stream, each `none` when it is not
  allocated (never created, or freed).  Reading a struct that is not
  allocated is the fault `use_after_free`.
* Calls into libuv, the OS and the Lua registry are appended to `State.trace`.
* libuv state that the C code drives but does not store is kept as ghost
  state: `prepare_active` / `timer_active` on the loop, the queue `closing` of
  handles whose `uv_close` callback has not run yet, and `buf`, the buffer
  descriptor libuv hands to `alloc_cb` and then to `read_cb`.
* A Lua C function ends in one of three ways (`Res`): it returns, it raises a
  Lua error (`luaL_error`, `luaL_typerror`: a longjmp that keeps the memory as
  it is at that point), or it hits an assertion / freed memory.
* What libuv or the OS decides is an explicit argument: the status of
  `uv_pipe_open` / `uv_spawn`, the number `drain` of close callbacks that run
  in a `UV_RUN_NOWAIT` pass, the number `polls` of rounds of the reaping loop,
  the net effect `env` of callbacks inside `uv_run`.
* The Lua C API (Lua 5.1) and libuv are libraries outside the file; the few
  calls the code relies on are modelled after their reference manuals.
* Allocation (`malloc`, `calloc`, `lua_newuserdata`) is assumed to succeed,
  and the data callback invoked by `read_cb` is assumed to return.
* Lua numbers are C doubles. No arithmetic is done on them; what the Lua
  library computes from them and from strings (the conversion of a number to
  `int`, of a string to a number, of a number to a string) is the parameter
  `LuaLib`, so every theorem holds for whatever these conversions are.
* The build is the non-Windows one (`#ifndef _WIN32` parts included).
-/

namespace NvimUv

/-! ## Lua values and the argument stack -/

/-- Name of a registered metatable: `LOOP_META_NAME`, `STREAM_META_NAME`. -/
inductive MetaName where
  | Loop
  | Stream
  deriving DecidableEq, Repr

/-- A Lua number, that is a C double: the finite value `m / 2^k`, an
infinity or a NaN. -/
inductive LuaNumber where
  | finite (m : Int) (k : Nat)
  | inf (negative : Bool)
  | nan
  deriving DecidableEq, Repr

/-- The Lua number of an integer. -/
def LuaNumber.of_int (n : Int) : LuaNumber := .finite n 0

/-- Conversions of the Lua 5.1 library that the binding relies on. They are
not part of `uv.c` and depend on the build of Lua and on the C library, so
they are parameters of the model:
* `number2int x` is the `int` that `luaL_checkint` returns for the number `x`
  (`lua_number2integer` followed by the cast to `int`);
* `str2number str` is the number that the string `str` converts to
  (`luaO_str2d`), `none` when it does not convert;
* `number2str x` is the string that `lua_tolstring` makes of the number `x`
  (`LUAI_NUMFMT`). -/
structure LuaLib where
  number2int : LuaNumber → Int
  str2number : String → Option LuaNumber
  number2str : LuaNumber → String

/-- Lua values as seen through the C API. A table is its array part
(elements `1..#t`); a userdata carries the metatable it was given, if any. -/
inductive LuaValue where
  | nil
  | boolean (b : Bool)
  | number (x : LuaNumber)
  | string (str : String)
  | table (arr : List LuaValue)
  | function
  | userdata (mt : Option MetaName)

/-- Lua type tags (`lua_type`). -/
inductive LuaType where
  | LUA_TNIL
  | LUA_TBOOLEAN
  | LUA_TNUMBER
  | LUA_TSTRING
  | LUA_TTABLE
  | LUA_TFUNCTION
  | LUA_TUSERDATA
  deriving DecidableEq, Repr

/-- The type tag of a value, as `lua_type` reports it. -/
def lua_type : LuaValue → LuaType
  | .nil => .LUA_TNIL
  | .boolean _ => .LUA_TBOOLEAN
  | .number _ => .LUA_TNUMBER
  | .string _ => .LUA_TSTRING
  | .table _ => .LUA_TTABLE
  | .function => .LUA_TFUNCTION
  | .userdata _ => .LUA_TUSERDATA

/-- Value at the positive stack index `i` (1-based); `none` is `LUA_TNONE`. -/
def lua_index (stack : List LuaValue) (i : Nat) : Option LuaValue :=
  match i with
  | 0 => none
  | j + 1 => stack[j]?

/-- Value at stack index `-1` (the top). -/
def lua_top (stack : List LuaValue) : Option LuaValue := stack.getLast?

/-- The Lua API test `lua_isnone(L, i)`. -/
def lua_isnone (stack : List LuaValue) (i : Nat) : Bool :=
  match lua_index stack i with
  | none => true
  | some _ => false

/-- The Lua API test `lua_isnoneornil(L, i)`. -/
def lua_isnoneornil (stack : List LuaValue) (i : Nat) : Bool :=
  match lua_index stack i with
  | none => true
  | some .nil => true
  | some _ => false

/-- The Lua API test `lua_isnumber(L, i)`: a number, or a string convertible
to a number. -/
def lua_isnumber (L : LuaLib) (stack : List LuaValue) (i : Nat) : Bool :=
  match lua_index stack i with
  | some (.number _) => true
  | some (.string str) => (L.str2number str).isSome
  | _ => false

/-- The Lua API call `luaL_checkint(L, i)`: the `int` of a number or of a
string convertible to a number; `none` when it raises a type error. -/
def luaL_checkint (L : LuaLib) (stack : List LuaValue) (i : Nat) : Option Int :=
  match lua_index stack i with
  | some (.number x) => some (L.number2int x)
  | some (.string str) =>
    match L.str2number str with
    | some x => some (L.number2int x)
    | none => none
  | _ => none

/-- The Lua API call `luaL_checkudata(L, 1, tname)`: argument 1 must be a
userdata whose metatable is the one registered under `tname`. -/
def luaL_checkudata (stack : List LuaValue) (tname : MetaName) : Bool :=
  match lua_index stack 1 with
  | some (.userdata (some mt)) => decide (mt = tname)
  | _ => false

/-- Translation of `checkloop`: argument 1 is a `nvim.Loop` userdata. -/
def checkloop (stack : List LuaValue) : Bool := luaL_checkudata stack .Loop

/-- Translation of `checkstream`: argument 1 is a `nvim.Stream` userdata. -/
def checkstream (stack : List LuaValue) : Bool := luaL_checkudata stack .Stream

/-- The Lua API call `lua_objlen`: `#t` for a table, the length of a string,
the block size (one pointer) of a userdata, 0 otherwise. -/
def lua_objlen : LuaValue → Nat
  | .table arr => arr.length
  | .string str => str.utf8ByteSize
  | .userdata _ => 8
  | _ => 0

/-- The Lua API call `lua_gettable` with the integer key `i`; `none` when
indexing raises a Lua error. A string and a userdata with a metatable are
indexed through their `__index` table, which has no integer keys. -/
def lua_gettable (t : LuaValue) (i : Nat) : Option LuaValue :=
  match t with
  | .table arr => some (arr.getD (i - 1) .nil)
  | .string _ => some .nil
  | .userdata (some _) => some .nil
  | _ => none

/-! ## Data model -/

/-- Stream discriminant (`StreamType`). -/
inductive StreamType where
  | StreamTypeStdio
  | StreamTypeChild
  deriving DecidableEq, Repr

/-- The C struct `UVLoop`, with the started state of its prepare and timer
handles. -/
structure UVLoop where
  running : Bool
  refcount : Nat
  timeout : Nat
  prepare_active : Bool
  timer_active : Bool
  deriving DecidableEq, Repr

/-- The C struct `UVStream` (`exited` is `data.child.exited`, meaningful for a
child stream only). The registry reference `read_cb` is not modelled. -/
structure UVStream where
  type : StreamType
  refcount : Nat
  reading : Bool
  active : Bool
  closed : Bool
  exited : Bool
  deriving DecidableEq, Repr

/-- The libuv handles embedded in a stream. -/
inductive Handle where
  | sink
  | source
  | process
  deriving DecidableEq, Repr

/-- Termination signals used by `stream_close`. -/
inductive Signal where
  | SIGTERM
  | SIGKILL
  deriving DecidableEq, Repr

/-- Run modes of `uv_run` used by the code. -/
inductive RunMode where
  | UV_RUN_DEFAULT
  | UV_RUN_NOWAIT
  deriving DecidableEq, Repr

/-- Calls the code makes into libuv, the OS, the Lua registry and the
allocator, in the order they are made. -/
inductive Action where
  | uv_pipe_open (fd : Nat)
  | uv_spawn (args : List String)
  | uv_read_start
  | uv_read_stop
  | uv_write (len : Nat)
  | uv_close (h : Handle)
  | kill (sig : Signal)
  | kill_probe
  | waitpid
  | uv_run (mode : RunMode)
  | uv_stop
  | uv_prepare_start
  | uv_prepare_stop
  | uv_timer_start (ms : Nat)
  | uv_timer_stop
  | luaL_ref
  | luaL_unref
  | alloc (len : Nat)
  | lua_call (len : Nat)
  | loop_close
  | free_loop
  | free_stream
  deriving DecidableEq, Repr

/-- Base pointer of a buffer descriptor: `NULL` or the stream's
`read_buffer`. -/
inductive BufBase where
  | NULL
  | read_buffer
  deriving DecidableEq, Repr

/-- The libuv buffer descriptor `uv_buf_t`. -/
structure uv_buf_t where
  len : Nat
  base : BufBase
  deriving DecidableEq, Repr

/-- Memory and libuv state reachable from one stream. -/
structure State where
  loop : Option UVLoop
  stream : Option UVStream
  closing : List Handle
  buf : uv_buf_t
  trace : List Action
  deriving DecidableEq, Repr

/-- Lua errors raised by the binding. -/
inductive LuaError where
  | usage (msg : String)
  | type_error (narg : Nat)
  | launch (status : Int)
  | runtime
  deriving DecidableEq, Repr

/-- Failures of the C program itself. -/
inductive Fault where
  | assert_failed
  | use_after_free
  deriving DecidableEq, Repr

/-- How a call ends, with the memory at that point. -/
inductive Res where
  | ok (s : State)
  | error (s : State) (e : LuaError)
  | fault (s : State) (f : Fault)
  deriving DecidableEq, Repr

/-- Memory at the end of a call. -/
def Res.state : Res → State
  | .ok s => s
  | .error s _ => s
  | .fault s _ => s

/-- Sequencing: continue with `f` when the call returned. -/
def Res.andThen (r : Res) (f : State → Res) : Res :=
  match r with
  | .ok s => f s
  | .error s e => .error s e
  | .fault s x => .fault s x

/-- Size of `UVStream.read_buffer` (`char read_buffer[0xffff]`). -/
def READ_BUFFER_SIZE : Nat := 0xffff

/-- The libuv error code `UV_ENOBUFS` (`-ENOBUFS`, 105 on Linux). -/
def UV_ENOBUFS : Int := -105

/-! ## Reference counting -/

/-- Translation of `loop_decref`. -/
def loop_decref (s : State) : Res :=
  match s.loop with
  | none => .fault s .use_after_free
  | some l =>
    if l.refcount = 0 then .fault s .assert_failed
    else if l.refcount - 1 ≠ 0 then
      .ok { s with loop := some { l with refcount := l.refcount - 1 } }
    else
      .ok { s with loop := none, trace := s.trace ++ [.loop_close, .free_loop] }

/-- Translation of `stream_decref`. -/
def stream_decref (s : State) : Res :=
  match s.stream with
  | none => .fault s .use_after_free
  | some st =>
    if st.refcount = 0 then .fault s .assert_failed
    else if st.refcount - 1 ≠ 0 then
      .ok { s with stream := some { st with refcount := st.refcount - 1 } }
    else
      (loop_decref { s with stream := some { st with refcount := 0 } }).andThen
        fun s1 => .ok { s1 with stream := none, trace := s1.trace ++ [.free_stream] }

/-- Translation of `stream_close_cb`. -/
def stream_close_cb (s : State) : Res := stream_decref s

/-- The closing-handles phase of one loop pass: libuv runs the close callback
of up to `n` handles of the queue, oldest first. -/
def run_closing : Nat → State → Res
  | 0, s => .ok s
  | n + 1, s =>
    match s.closing with
    | [] => .ok s
    | _ :: rest => (stream_close_cb { s with closing := rest }).andThen (run_closing n)

/-! ## Callbacks -/

/-- Translation of `timer_cb`. -/
def timer_cb (s : State) : State := { s with trace := s.trace ++ [.uv_stop] }

/-- Translation of `prepare_cb`. -/
def prepare_cb (s : State) : Res :=
  match s.loop with
  | none => .fault s .use_after_free
  | some l =>
    .ok { s with
      loop := some { l with timer_active := true, prepare_active := false }
      trace := s.trace ++ [.uv_timer_start l.timeout, .uv_prepare_stop] }

/-- Translation of `exit_cb`. -/
def exit_cb (s : State) : Res :=
  match s.stream with
  | none => .fault s .use_after_free
  | some st => .ok { s with stream := some { st with exited := true } }

/-- Translation of `alloc_cb`: fills the descriptor `buf`. -/
def alloc_cb (s : State) : Res :=
  match s.stream with
  | none => .fault s .use_after_free
  | some st =>
    if st.reading then
      .ok { s with buf := { len := 0, base := .NULL }, trace := s.trace ++ [.alloc 0] }
    else
      .ok { s with
        buf := { len := READ_BUFFER_SIZE, base := .read_buffer }
        stream := some { st with reading := true }
        trace := s.trace ++ [.alloc READ_BUFFER_SIZE] }

/-- Translation of `read_cb`. The data callback (`lua_call`) is recorded with
the length of the chunk it receives. -/
def read_cb (s : State) (cnt : Int) : Res :=
  match s.stream with
  | none => .fault s .use_after_free
  | some st =>
    if cnt ≤ 0 then
      if cnt ≠ UV_ENOBUFS then
        .ok { s with trace := s.trace ++ [.uv_read_stop, .uv_stop] }
      else .ok s
    else
      .ok { s with
        stream := some { st with reading := false }
        trace := s.trace ++ [.lua_call cnt.toNat] }

/-! ## Stream operations -/

/-- Calls of the reaping loop at the end of `stream_close`:
`while (!kill(pid, 0)) waitpid(pid, NULL, WNOHANG);` where the probe succeeds
`polls` times before it reports that the process is gone. -/
def reap_actions : Nat → List Action
  | 0 => [.kill_probe]
  | n + 1 => .kill_probe :: .waitpid :: reap_actions n

/-- Handles that `stream_close` closes: sink, source and, for a child, the
process handle. -/
def close_handles (t : StreamType) : List Handle :=
  if t = .StreamTypeChild then [.sink, .source, .process] else [.sink, .source]

/-- Second half of `stream_close`, from the `uv_close` calls to the end:
the closes are issued, a temporary reference is taken, the loop is spun once
(`drain` close callbacks run), the reference is dropped and a live child is
reaped. -/
def stream_close_tail (s : State) (drain polls : Nat) : Res :=
  match s.stream with
  | none => .fault s .use_after_free
  | some st =>
    let s1 : State :=
      { s with
        stream := some { st with refcount := st.refcount + 1 }
        closing := s.closing ++ close_handles st.type
        trace := s.trace ++ (close_handles st.type).map Action.uv_close
                  ++ [.uv_run .UV_RUN_NOWAIT] }
    (run_closing drain s1).andThen fun s2 =>
      match s2.stream with
      | none => .fault s2 .use_after_free
      | some st2 =>
        if st2.refcount = 1 then stream_decref s2
        else
          (stream_decref s2).andThen fun s3 =>
            match s3.stream with
            | none => .fault s3 .use_after_free
            | some st3 =>
              if st3.type = .StreamTypeChild ∧ st3.exited = false then
                .ok { s3 with trace := s3.trace ++ reap_actions polls }
              else .ok s3

/-- First statements of `stream_close` on a stream `st` that is not closed:
`closed` is set and an armed read is stopped. -/
def stream_close_head (s : State) (st : UVStream) : State :=
  if st.active then
    { s with
      stream := some { st with closed := true, active := false }
      trace := s.trace ++ [.uv_read_stop] }
  else { s with stream := some { st with closed := true } }

/-- Translation of `stream_close`, called with the Lua stack `stack`. -/
def stream_close (L : LuaLib) (s : State) (stack : List LuaValue) (drain polls : Nat) : Res :=
  if checkstream stack = false then .error s (.type_error 1)
  else
    match s.stream with
    | none => .fault s .use_after_free
    | some st =>
      if st.closed then .ok s
      else
        let s1 := stream_close_head s st
        if st.type = .StreamTypeChild ∧ lua_isnone stack 2 = false
            ∧ lua_isnumber L stack 2 = true ∧ st.exited = false then
          match luaL_checkint L stack 2 with
          | none => .error s1 (.type_error 2)
          | some sigkill =>
            stream_close_tail
              { s1 with
                trace := s1.trace ++ [.kill (if sigkill ≠ 0 then .SIGKILL else .SIGTERM)] }
              drain polls
        else stream_close_tail s1 drain polls

/-- Translation of `stream_delete` (the `__gc` metamethod of a stream). -/
def stream_delete (L : LuaLib) (s : State) (stack : List LuaValue) (drain polls : Nat) : Res :=
  if checkstream stack = false then .error s (.type_error 1)
  else (stream_close L s stack drain polls).andThen stream_decref

/-- Translation of `stream_read_start`. -/
def stream_read_start (s : State) (stack : List LuaValue) : Res :=
  if checkstream stack = false then .error s (.type_error 1)
  else
    match s.stream with
    | none => .fault s .use_after_free
    | some st =>
      .ok { s with
        stream := some { st with active := true }
        trace := s.trace ++ [.luaL_ref, .uv_read_start] }

/-- Translation of `stream_read_stop`. -/
def stream_read_stop (s : State) (stack : List LuaValue) : Res :=
  if checkstream stack = false then .error s (.type_error 1)
  else
    match s.stream with
    | none => .fault s .use_after_free
    | some st =>
      .ok { s with
        stream := some { st with active := false }
        trace := s.trace ++ [.uv_read_stop, .luaL_unref] }

/-- The Lua API call `luaL_checklstring(L, 2, &len)`: the byte length of a
string argument (a number is converted to a string first); `none` when it
raises a type error. -/
def luaL_checklstring (L : LuaLib) (stack : List LuaValue) : Option Nat :=
  match lua_index stack 2 with
  | some (.string str) => some str.utf8ByteSize
  | some (.number x) => some (L.number2str x).utf8ByteSize
  | _ => none

/-- Translation of `stream_write`. The status of `uv_write` only decides
whether the request and the copy of the data are freed here or in
`write_cb`; it is not reported to the caller. -/
def stream_write (L : LuaLib) (s : State) (stack : List LuaValue) : Res :=
  if checkstream stack = false then .error s (.type_error 1)
  else
    match luaL_checklstring L stack with
    | none => .error s (.type_error 2)
    | some len =>
      match s.stream with
      | none => .fault s .use_after_free
      | some _ => .ok { s with trace := s.trace ++ [.uv_write len] }

/-! ## Loop operations -/

/-- Translation of `loop_new`: a loop with the host's reference. -/
def loop_new (s : State) : Res :=
  .ok { s with
    loop := some
      { running := false, refcount := 1, timeout := 0
        prepare_active := false, timer_active := false } }

/-- Translation of `loop_stdio`. `open_in` and `open_out` are the statuses of
the two `uv_pipe_open` calls; `drain` and `polls` are passed to the
`stream_close` of the error path. -/
def loop_stdio (L : LuaLib) (s : State) (stack : List LuaValue) (open_in open_out : Int)
    (drain polls : Nat) : Res :=
  if checkloop stack = false then .error s (.type_error 1)
  else
    match s.loop with
    | none => .fault s .use_after_free
    | some l =>
      let stack1 := stack ++ [LuaValue.userdata none]
      let st : UVStream :=
        { type := .StreamTypeStdio, refcount := 2, reading := false
          active := false, closed := false, exited := false }
      let s1 : State :=
        { s with
          loop := some { l with refcount := l.refcount + 1 }
          stream := some st
          trace := s.trace ++ [.uv_pipe_open 0] }
      if open_in ≠ 0 then
        (stream_close L s1 stack1 drain polls).andThen fun s2 => .error s2 (.launch open_in)
      else
        let s2 : State := { s1 with trace := s1.trace ++ [.uv_pipe_open 1] }
        if open_out ≠ 0 then
          (stream_close L s2 stack1 drain polls).andThen fun s3 => .error s3 (.launch open_out)
        else
          .ok { s2 with stream := some { st with refcount := st.refcount + 1 } }

/-- The argv loop of `loop_spawn` over the indices `is`: element `i` of the
value `top` is fetched and must have type string. -/
def spawn_argv (top : LuaValue) : List Nat → Except LuaError (List String)
  | [] => .ok []
  | i :: is =>
    match lua_gettable top i with
    | none => .error .runtime
    | some (.string str) =>
      match spawn_argv top is with
      | .ok rest => .ok (str :: rest)
      | .error e => .error e
    | some _ => .error (.usage "`spawn` argv has non-string entries")

/-- Translation of `loop_spawn`. `status` is what `uv_spawn` returns; `drain`
and `polls` are passed to the `stream_close` of the error path. -/
def loop_spawn (L : LuaLib) (s : State) (stack : List LuaValue) (status : Int)
    (drain polls : Nat) : Res :=
  if checkloop stack = false then .error s (.type_error 1)
  else
    match lua_index stack 2 with
    | some (.table _) =>
      match lua_top stack with
      | none => .error s .runtime
      | some top =>
        if lua_objlen top = 0 then
          .error s (.usage "`spawn` argv must have at least one string")
        else
          match spawn_argv top (List.range' 1 (lua_objlen top)) with
          | .error e => .error s e
          | .ok argv =>
            match s.loop with
            | none => .fault s .use_after_free
            | some l =>
              let stack1 := stack ++ [LuaValue.userdata none]
              let st : UVStream :=
                { type := .StreamTypeChild, refcount := 2, reading := false
                  active := false, closed := false, exited := false }
              let s1 : State :=
                { s with
                  loop := some { l with refcount := l.refcount + 1 }
                  stream := some st
                  trace := s.trace ++ [.uv_spawn argv] }
              if status ≠ 0 then
                (stream_close L { s1 with stream := some { st with exited := true } }
                    stack1 drain polls).andThen
                  fun s2 => .error s2 (.launch status)
              else
                .ok { s1 with stream := some { st with refcount := st.refcount + 2 } }
    | _ => .error s (.type_error 2)

/-- The part of `loop_run` from `loop->running = true` to the end, for the
run mode `mode`. `env` is the net effect on memory of the callbacks that
libuv dispatches inside `uv_run`. -/
def loop_run_tail (s : State) (mode : RunMode) (env : State → State) : Res :=
  match s.loop with
  | none => .fault s .use_after_free
  | some l =>
    let s1 := env { s with
      loop := some { l with running := true }
      trace := s.trace ++ [.uv_run mode] }
    match s1.loop with
    | none => .fault s1 .use_after_free
    | some l1 =>
      if mode = .UV_RUN_DEFAULT then
        .ok { s1 with
          loop := some { l1 with running := false, prepare_active := false
                                 timer_active := false }
          trace := s1.trace ++ [.uv_prepare_stop, .uv_timer_stop] }
      else .ok { s1 with loop := some { l1 with running := false } }

/-- Translation of `loop_run`. -/
def loop_run (L : LuaLib) (s : State) (stack : List LuaValue) (env : State → State) : Res :=
  if checkloop stack = false then .error s (.type_error 1)
  else
    match s.loop with
    | none => .fault s .use_after_free
    | some l =>
      if l.running then .error s (.usage "Loop already running")
      else
        let l0 : UVLoop := { l with timeout := 0 }
        let s0 : State := { s with loop := some l0 }
        if lua_isnoneornil stack 2 = false then
          match luaL_checkint L stack 2 with
          | none => .error s0 (.type_error 2)
          | some timeout =>
            if timeout < 0 then
              .error s0 (.usage "Timeout argument must be a positive integer")
            else if timeout = 0 then loop_run_tail s0 .UV_RUN_NOWAIT env
            else
              loop_run_tail
                { s0 with
                  loop := some { l0 with timeout := timeout.toNat, prepare_active := true }
                  trace := s0.trace ++ [.uv_prepare_start] }
                .UV_RUN_DEFAULT env
        else loop_run_tail s0 .UV_RUN_DEFAULT env

/-- Translation of `loop_stop`. -/
def loop_stop (s : State) (stack : List LuaValue) : Res :=
  if checkloop stack = false then .error s (.type_error 1)
  else .ok { s with trace := s.trace ++ [.uv_stop] }

/-- Translation of `loop_delete` (the `__gc` metamethod of a loop). -/
def loop_delete (s : State) (stack : List LuaValue) : Res :=
  if checkloop stack = false then .error s (.type_error 1)
  else loop_decref s

/-! ## Event sequences -/

/-- The userdata a stream method receives as argument 1. -/
def stream_ud : LuaValue := .userdata (some .Stream)

/-- The userdata a loop method receives as argument 1. -/
def loop_ud : LuaValue := .userdata (some .Loop)

/-- What can happen to a stream: callbacks that libuv dispatches and methods
that the host calls (`args` are the Lua arguments after the stream itself). -/
inductive Event where
  | alloc
  | read (cnt : Int)
  | exit
  | close_done
  | read_start (args : List LuaValue)
  | read_stop (args : List LuaValue)
  | write (args : List LuaValue)
  | close (args : List LuaValue) (drain polls : Nat)
  | delete (drain polls : Nat)

/-- One event. After `read_cb` returns, libuv drops the buffer descriptor it
passed (each read gets a fresh descriptor from `alloc_cb`); `close_done` is a
later loop pass that runs one pending close callback. -/
def step (L : LuaLib) (s : State) : Event → Res
  | .alloc => alloc_cb s
  | .read cnt =>
    (read_cb s cnt).andThen fun s1 => .ok { s1 with buf := { len := 0, base := .NULL } }
  | .exit => exit_cb s
  | .close_done => run_closing 1 s
  | .read_start args => stream_read_start s (stream_ud :: args)
  | .read_stop args => stream_read_stop s (stream_ud :: args)
  | .write args => stream_write L s (stream_ud :: args)
  | .close args drain polls => stream_close L s (stream_ud :: args) drain polls
  | .delete drain polls => stream_delete L s [stream_ud] drain polls

/-- A sequence of events, stopping at the first one that does not return. -/
def run (L : LuaLib) (s : State) : List Event → Res
  | [] => .ok s
  | e :: es => (step L s e).andThen fun s1 => run L s1 es

/-! ## Auxiliary definitions for the statements -/

/-- The stream of `s1` is the stream of `s` up to its reference count, or has
been freed. -/
def StreamKept (s s1 : State) : Prop :=
  s1.stream = none ∨
    ∃ st n, s.stream = some st ∧ s1.stream = some { st with refcount := n }

/-- Conversion of an integer to the C `int` (32 bits, two's complement). -/
def to_int32 (n : Int) : Int := (n + 2147483648) % 4294967296 - 2147483648

/-- One value of the parameter `LuaLib`, used to run the examples: the plain C
cast of a double to `int` (truncation, as in the x86-64 build of Lua 5.1),
strings of decimal digits as numbers, numbers printed by their integer part.
The examples pass the numbers 0, 0.5, 1, -1 and 500 and convert no string;
the theorems hold for every `LuaLib`. -/
def sample_lua : LuaLib where
  number2int := fun x =>
    match x with
    | .finite m k => to_int32 (m.tdiv (2 ^ k))
    | _ => -2147483648
  str2number := fun str =>
    if str.isEmpty then none else str.toNat?.map fun n => LuaNumber.finite n 0
  number2str := fun x =>
    match x with
    | .finite m k => toString (m.tdiv (2 ^ k))
    | .inf negative => if negative then "-inf" else "inf"
    | .nan => "nan"

/-- Memory before any loop exists. -/
def empty_state : State :=
  { loop := none, stream := none, closing := [], buf := { len := 0, base := .NULL }, trace := [] }

/-- A loop right after `loop_new`. -/
def sample_loop : State := (loop_new empty_state).state

/-- A stdio stream right after a successful `loop_stdio` on a new loop. -/
def sample_stdio : State := (loop_stdio sample_lua sample_loop [loop_ud] 0 0 0 0).state

/-- A child stream right after a successful `loop_spawn` on a new loop. -/
def sample_child : State :=
  (loop_spawn sample_lua sample_loop [loop_ud, .table [.string "cat"]] 0 0 0).state

/-- Termination signals in a trace, in order (`kill(pid, 0)` is a probe, not a
signal). -/
def signals (tr : List Action) : List Signal :=
  tr.filterMap fun a =>
    match a with
    | .kill sig => some sig
    | _ => none

/-- The signal that argument 2 of `close` selects, stated by kind of value: a
number, or a string that converts to a number, selects SIGKILL when its
conversion to `int` is non-zero and SIGTERM when it is zero; any other value,
a boolean included, and an absent argument select nothing. -/
def selected_signal (L : LuaLib) : Option LuaValue → Option Signal
  | some (.number x) => some (if L.number2int x ≠ 0 then .SIGKILL else .SIGTERM)
  | some (.string str) =>
    match L.str2number str with
    | some x => some (if L.number2int x ≠ 0 then .SIGKILL else .SIGTERM)
    | none => none
  | _ => none

/-- A loop after a bounded run `run(500)` during which the prepare hook and
then the timer fired. -/
def sample_bounded : State :=
  (loop_run sample_lua sample_loop [loop_ud, .number (.of_int 500)] fun s => timer_cb (prepare_cb s).state).state

/-- A stdio stream after `close()` whose two close callbacks have not run
yet: closed, still allocated. -/
def sample_closed : State := (stream_close sample_lua sample_stdio [stream_ud] 0 0).state

/-- The read protocol of libuv: the count passed to `read_cb` is at most the
length of the buffer that the preceding `alloc_cb` offered (a `read_cb` with
no offer before it carries no data). -/
def reads_fit (L : LuaLib) (s : State) : List Event → Bool
  | [] => true
  | e :: es =>
    (match e with
      | .read cnt => decide (cnt ≤ (s.buf.len : Int))
      | _ => true)
    && (match step L s e with
      | .ok s1 => reads_fit L s1 es
      | _ => true)

/-- The fault a call ended in, if any. -/
def Res.failure : Res → Option Fault
  | .fault _ f => some f
  | _ => none

/-- The stream of `s`, if still allocated, is marked closed. -/
def ClosedOrFreed (s : State) : Prop := ∀ st, s.stream = some st → st.closed = true

/-- The call `r`, started with trace `tr`, appended only actions that satisfy
`p`, whatever its outcome. -/
def Emits (p : Action → Bool) (tr : List Action) (r : Res) : Prop :=
  ∃ ext, r.state.trace = tr ++ ext ∧ ∀ a ∈ ext, p a = true

/-- Actions of the close path and of the reference-counting helpers. -/
def close_path_action : Action → Bool
  | .uv_read_stop => true
  | .uv_close _ => true
  | .kill _ => true
  | .kill_probe => true
  | .waitpid => true
  | .uv_run _ => true
  | .loop_close => true
  | .free_loop => true
  | .free_stream => true
  | _ => false

/-- Actions that hand no data around: anything but a delivery to the data
callback or the offer of a non-empty buffer. -/
def no_data : Action → Bool
  | .lua_call _ => false
  | .alloc n => decide (n = 0)
  | _ => true

/-- The read buffer is outstanding and libuv holds no buffer descriptor:
`reading` is set on the stream (if it is still allocated) and `buf` is
empty. -/
def Stuck (s : State) : Prop :=
  (∀ st, s.stream = some st → st.reading = true) ∧ s.buf.len = 0

/-- A stream still allocated in `s1` was allocated in `s` with the same
`reading` flag. -/
def ReadingKept (s s1 : State) : Prop :=
  ∀ st1, s1.stream = some st1 → ∃ st, s.stream = some st ∧ st1.reading = st.reading

/-- The host release. -/
def Event.is_delete : Event → Bool
  | .delete _ _ => true
  | _ => false

/-- Calls of `stream_close`: the explicit close, and the host release, which
calls it first. -/
def Event.is_close : Event → Bool
  | .close _ _ _ => true
  | .delete _ _ => true
  | _ => false

/-- A close completion in a later loop pass. -/
def Event.is_done : Event → Bool
  | .close_done => true
  | _ => false

/-- The arguments of the call pass the type checks of the binding: `write`
gets a string or a number. -/
def Event.well_typed (L : LuaLib) : Event → Bool
  | .write args => (luaL_checklstring L (stream_ud :: args)).isSome
  | _ => true

/-- Orders of events in the life of a stream in which the host release is the
last thing the host does with it. Before the release anything may happen, in
any number and order: callbacks of the read path, the exit callback,
`read_start`, `read_stop`, `write` (with an argument that `luaL_checklstring`
accepts), explicit closes, close completions. After it only close completions
come. `released` tells whether the release has happened. -/
def host_order (L : LuaLib) (released : Bool) : List Event → Bool
  | [] => true
  | e :: es =>
    (if released then e.is_done else e.well_typed L)
    && host_order L (released || e.is_delete) es

/-- Reference-count ledger of a stream created on the loop `l` (the value
before the stream was bound to it), for a trace that started as `tr0`.

While the stream is allocated: its refcount is at least 1 and equals the
host's reference (if not released) plus the close completions still to come
(one per handle before the closes are issued, the pending ones after); a
stream that is not closed has no pending completion and is not released; a
closed stream has had its closes issued exactly once; the loop holds the
stream's reference; the stream was never freed.

Once the stream is freed: the host has released it, the closes were issued
once and none is pending, the stream was freed exactly once and the loop's
refcount is back to that of `l`. -/
def Lifecycle (l : UVLoop) (tr0 : List Action) (released : Bool) (s : State) : Prop :=
  ∃ ext, s.trace = tr0 ++ ext ∧
    match s.stream with
    | some st =>
      1 ≤ st.refcount
      ∧ st.refcount = (if released then 0 else 1)
          + (if st.closed then s.closing.length else (close_handles st.type).length)
      ∧ (st.closed = false → s.closing = [] ∧ released = false)
      ∧ s.closing.length ≤ (close_handles st.type).length
      ∧ s.loop = some { l with refcount := l.refcount + 1 }
      ∧ ext.count .free_stream = 0
      ∧ ext.count (.uv_close .sink) = (if st.closed then 1 else 0)
    | none =>
      released = true ∧ s.closing = [] ∧ s.loop = some l
      ∧ ext.count .free_stream = 1 ∧ ext.count (.uv_close .sink) = 1

/-! ## A loop with several streams -/

/-- Memory of a loop and the streams bound to it (`none`: not allocated). -/
structure World where
  loop : Option UVLoop
  streams : List (Option UVStream)
  trace : List Action
  deriving DecidableEq, Repr

/-- The part of the world that a call on one stream (or on none) sees. -/
def World.view (w : World) (st : Option UVStream) : State :=
  { loop := w.loop, stream := st, closing := [], buf := { len := 0, base := .NULL }
    trace := w.trace }

/-- Events that touch the loop's refcount: the host's `loop_delete` and a
`stream_decref` on stream `i` (a close completion or the host release of the
stream; the one that takes the stream's refcount to zero is its final
release). -/
inductive LoopEvent where
  | loop_delete
  | stream_decref (i : Nat)
  deriving DecidableEq, Repr

/-- One event on the world; `none` when the call does not return. -/
def world_step (w : World) : LoopEvent → Option World
  | .loop_delete =>
    match loop_delete (w.view none) [loop_ud] with
    | .ok s => some { w with loop := s.loop, trace := s.trace }
    | _ => none
  | .stream_decref i =>
    match w.streams[i]? with
    | none => none
    | some st =>
      match stream_decref (w.view st) with
      | .ok s => some { loop := s.loop, streams := w.streams.set i s.stream, trace := s.trace }
      | _ => none

/-- A sequence of events on the world. -/
def world_run (w : World) : List LoopEvent → Option World
  | [] => some w
  | e :: es => (world_step w e).bind fun w1 => world_run w1 es

/-- The world after `loop_new`. -/
def world_new : World :=
  { loop := (loop_new empty_state).state.loop, streams := []
    trace := (loop_new empty_state).state.trace }

/-- A stream is created on the loop: by `loop_spawn` when `child`, by
`loop_stdio` otherwise; `none` when the creation does not succeed. -/
def world_add (L : LuaLib) (w : World) (child : Bool) : Option World :=
  match (if child then loop_spawn L (w.view none) [loop_ud, .table [.string "cat"]] 0 0 0
         else loop_stdio L (w.view none) [loop_ud] 0 0 0 0) with
  | .ok s => some { loop := s.loop, streams := w.streams ++ [s.stream], trace := s.trace }
  | _ => none

/-- Streams are created one after the other, of the given kinds. -/
def world_add_all (L : LuaLib) (w : World) : List Bool → Option World
  | [] => some w
  | k :: ks => (world_add L w k).bind fun w1 => world_add_all L w1 ks

/-- Number of allocated streams. -/
def live : List (Option UVStream) → Nat
  | [] => 0
  | none :: r => live r
  | some _ :: r => live r + 1

/-- Refcount of stream `i`, 0 when it is not allocated. -/
def stream_refcount (w : World) (i : Nat) : Nat :=
  match w.streams[i]? with
  | some (some st) => st.refcount
  | _ => 0

/-- Ledger of the loop against the events still to come: every allocated
stream has as many decrements to come as its refcount (at least 1), at most
one `loop_delete` is to come, and the loop's refcount is the number of
references still to be released (the host's plus one per allocated stream);
the loop is allocated and was never torn down as long as that number is not
zero, and was torn down exactly once when it is. -/
def LoopLedger (w : World) (evs : List LoopEvent) : Prop :=
  (∀ i, evs.count (.stream_decref i) = stream_refcount w i)
  ∧ (∀ (i : Nat) (st : UVStream), w.streams[i]? = some (some st) → 1 ≤ st.refcount)
  ∧ evs.count .loop_delete ≤ 1
  ∧ match w.loop with
    | some lp =>
      lp.refcount = evs.count .loop_delete + live w.streams ∧ 1 ≤ lp.refcount
      ∧ w.trace.count .loop_close = 0 ∧ w.trace.count .free_loop = 0
    | none =>
      evs.count .loop_delete + live w.streams = 0
      ∧ w.trace.count .loop_close = 1 ∧ w.trace.count .free_loop = 1

/-- The event concerns the loop or one of the first `n` streams. -/
def LoopEvent.within (n : Nat) : LoopEvent → Bool
  | .loop_delete => true
  | .stream_decref i => decide (i < n)

/-- State of a loop on which streams were created and nothing was released:
the loop holds the host's reference and one per stream, every stream is
allocated with the refcount it got at creation (3 or 4), and the loop was
never torn down. -/
def Created (w : World) : Prop :=
  (∃ lp, w.loop = some lp ∧ lp.refcount = w.streams.length + 1)
  ∧ live w.streams = w.streams.length
  ∧ (∀ (i : Nat) (st : UVStream), w.streams[i]? = some (some st) →
      st.refcount = 3 ∨ st.refcount = 4)
  ∧ w.trace.count .loop_close = 0 ∧ w.trace.count .free_loop = 0

/-- A loop with a stdio stream and a child stream, as created. -/
def sample_world : World :=
  { loop := some { running := false, refcount := 3, timeout := 0
                   prepare_active := false, timer_active := false }
    streams :=
      [some { type := .StreamTypeStdio, refcount := 3, reading := false
              active := false, closed := false, exited := false },
       some { type := .StreamTypeChild, refcount := 4, reading := false
              active := false, closed := false, exited := false }]
    trace := [.uv_pipe_open 0, .uv_pipe_open 1, .uv_spawn ["cat"]] }

/-! # Theorems -/

variable {L : LuaLib}

/-! ## Frame lemmas for the reference-counting helpers -/

theorem andThen_eq_ok {r : Res} {f : State → Res} {s : State}
    (h : r.andThen f = .ok s) : ∃ s1, r = .ok s1 ∧ f s1 = .ok s := by
  cases r with
  | ok s1 => exact ⟨s1, rfl, h⟩
  | error s1 e => simp [Res.andThen] at h
  | fault s1 x => simp [Res.andThen] at h

theorem loop_decref_frame {s s1 : State} (h : loop_decref s = .ok s1) :
    s1.stream = s.stream ∧ s1.closing = s.closing ∧ s1.buf = s.buf := by
  unfold loop_decref at h
  split at h
  · simp at h
  · split at h
    · simp at h
    · split at h <;> (simp at h; subst h; simp)

theorem stream_decref_frame {s s1 : State} (h : stream_decref s = .ok s1) :
    (s1.stream = none ∨
      ∃ st, s.stream = some st ∧ s1.stream = some { st with refcount := st.refcount - 1 })
    ∧ s1.closing = s.closing ∧ s1.buf = s.buf := by
  unfold stream_decref at h
  split at h
  · simp at h
  · rename_i st hst
    split at h
    · simp at h
    · split at h
      · simp at h; subst h; exact ⟨Or.inr ⟨st, hst, rfl⟩, rfl, rfl⟩
      · obtain ⟨s2, h2, h3⟩ := andThen_eq_ok h
        have hf := loop_decref_frame h2
        simp at h3; subst h3
        exact ⟨Or.inl rfl, hf.2.1, hf.2.2⟩

theorem streamKept_trans {s s1 s2 : State} (h1 : StreamKept s s1) (h2 : StreamKept s1 s2) :
    StreamKept s s2 := by
  rcases h2 with h2 | ⟨st1, n, h2, h3⟩
  · exact Or.inl h2
  · rcases h1 with h1 | ⟨st, m, h1, h4⟩
    · rw [h1] at h2; simp at h2
    · rw [h4] at h2
      simp at h2
      subst h2
      exact Or.inr ⟨st, n, h1, h3⟩

theorem stream_decref_kept {s s1 : State} (h : stream_decref s = .ok s1) :
    StreamKept s s1 := by
  rcases (stream_decref_frame h).1 with h1 | ⟨st, h1, h2⟩
  · exact Or.inl h1
  · exact Or.inr ⟨st, _, h1, h2⟩

theorem run_closing_kept (n : Nat) : ∀ {s s1 : State},
    run_closing n s = .ok s1 → s.stream.isSome = true → StreamKept s s1 ∧ s1.buf = s.buf := by
  induction n with
  | zero =>
    intro s s1 h hs
    simp [run_closing] at h; subst h
    obtain ⟨st, hst⟩ := Option.isSome_iff_exists.mp hs
    exact ⟨Or.inr ⟨st, st.refcount, hst, hst⟩, rfl⟩
  | succ n ih =>
    intro s s1 h hs
    obtain ⟨st, hst⟩ := Option.isSome_iff_exists.mp hs
    unfold run_closing at h
    split at h
    · simp at h; subst h
      exact ⟨Or.inr ⟨st, st.refcount, hst, hst⟩, rfl⟩
    · rename_i hd rest hcl
      obtain ⟨s2, h2, h3⟩ := andThen_eq_ok h
      have hk : StreamKept s s2 := by
        have := stream_decref_kept h2
        rcases this with h4 | ⟨st2, m, h4, h5⟩
        · exact Or.inl h4
        · exact Or.inr ⟨st2, m, by simpa using h4, h5⟩
      have hb : s2.buf = s.buf := by
        have := (stream_decref_frame h2).2.2
        simpa using this
      cases hs2 : s2.stream with
      | none =>
        -- the stream is gone: any further callback faults, so the pass ends here
        cases n with
        | zero => simp [run_closing] at h3; subst h3; exact ⟨hk, hb⟩
        | succ m =>
          unfold run_closing at h3
          split at h3
          · simp at h3; subst h3; exact ⟨hk, hb⟩
          · simp [stream_close_cb, stream_decref, hs2, Res.andThen] at h3
      | some st2 =>
        have := ih h3 (by simp [hs2])
        exact ⟨streamKept_trans hk this.1, this.2.trans hb⟩

theorem stream_close_tail_kept {s s1 : State} {drain polls : Nat}
    (h : stream_close_tail s drain polls = .ok s1) : StreamKept s s1 ∧ s1.buf = s.buf := by
  unfold stream_close_tail at h
  split at h
  · simp at h
  · rename_i st hst
    simp only at h
    obtain ⟨s2, h2, h3⟩ := andThen_eq_ok h
    have hk2 := run_closing_kept drain h2 (by simp)
    have hk : StreamKept s s2 := by
      rcases hk2.1 with h4 | ⟨st2, m, h4, h5⟩
      · exact Or.inl h4
      · simp at h4; subst h4
        exact Or.inr ⟨st, m, hst, h5⟩
    have hb : s2.buf = s.buf := by simpa using hk2.2
    split at h3
    · simp at h3
    · split at h3
      · exact ⟨streamKept_trans hk (stream_decref_kept h3), (stream_decref_frame h3).2.2.trans hb⟩
      · obtain ⟨s3, h4, h5⟩ := andThen_eq_ok h3
        have hk3 := streamKept_trans hk (stream_decref_kept h4)
        have hb3 := (stream_decref_frame h4).2.2.trans hb
        split at h5
        · simp at h5
        · split at h5
          · simp at h5; subst h5
            exact ⟨by simpa [StreamKept] using hk3, hb3⟩
          · simp at h5; subst h5; exact ⟨hk3, hb3⟩

theorem stream_close_head_stream (s : State) (st : UVStream) :
    (stream_close_head s st).stream = some { st with closed := true, active := false } := by
  unfold stream_close_head
  split
  · rfl
  · rename_i h
    simp at h
    simp [← h]

theorem stream_close_head_frame (s : State) (st : UVStream) :
    (stream_close_head s st).loop = s.loop ∧ (stream_close_head s st).closing = s.closing
      ∧ (stream_close_head s st).buf = s.buf := by
  unfold stream_close_head
  split <;> simp

theorem signals_stream_close_head (s : State) (st : UVStream) :
    signals (stream_close_head s st).trace = signals s.trace := by
  unfold stream_close_head
  split <;> simp [signals]

/-- After `stream_close` returns, a stream that is still allocated is marked
closed. -/
theorem stream_close_closed {s s1 : State} {stack : List LuaValue} {drain polls : Nat}
    (h : stream_close L s stack drain polls = .ok s1) :
    ∀ st1, s1.stream = some st1 → st1.closed = true := by
  intro st1 hst1
  unfold stream_close at h
  split at h
  · simp at h
  · split at h
    · simp at h
    · rename_i st hst
      split at h
      · rename_i hc
        simp at h; subst h
        rw [hst] at hst1; simp at hst1; subst hst1; exact hc
      · simp only at h
        have key : ∀ (s0 : State) (tr : List Action),
            (∃ st0, s0.stream = some st0 ∧ st0.closed = true) →
            stream_close_tail { s0 with trace := tr } drain polls = .ok s1 →
            st1.closed = true := by
          intro s0 tr ⟨st0, h0, hc0⟩ ht
          rcases (stream_close_tail_kept ht).1 with h5 | ⟨st5, m, h5, h6⟩
          · rw [h5] at hst1; simp at hst1
          · simp [h0] at h5; subst h5
            rw [h6] at hst1; simp at hst1; subst hst1; exact hc0
        have hs1 := stream_close_head_stream s st
        split at h
        · split at h
          · simp at h
          · exact key _ _ ⟨_, hs1, rfl⟩ h
        · exact key _ _ ⟨_, hs1, rfl⟩ (by simpa using h)

/-! ## Signals are only sent by the head of `stream_close` -/

theorem signals_append (a b : List Action) : signals (a ++ b) = signals a ++ signals b := by
  simp [signals, List.filterMap_append]

theorem signals_reap (n : Nat) : signals (reap_actions n) = [] := by
  induction n with
  | zero => simp [reap_actions, signals]
  | succ n ih =>
    simp only [reap_actions, signals, List.filterMap_cons] at ih ⊢
    exact ih

theorem signals_close_handles (t : StreamType) :
    signals ((close_handles t).map Action.uv_close) = [] := by
  cases t <;> simp [close_handles, signals]

theorem signals_andThen {r : Res} {f : State → Res}
    (h : ∀ s1, r = .ok s1 → signals (f s1).state.trace = signals s1.trace) :
    signals (r.andThen f).state.trace = signals r.state.trace := by
  cases r with
  | ok s1 => simpa [Res.andThen, Res.state] using h s1 rfl
  | error s1 e => rfl
  | fault s1 x => rfl

theorem signals_loop_decref (s : State) :
    signals (loop_decref s).state.trace = signals s.trace := by
  unfold loop_decref
  split
  · rfl
  · split
    · rfl
    · split
      · rfl
      · simp [Res.state, signals_append, signals]

theorem signals_stream_decref (s : State) :
    signals (stream_decref s).state.trace = signals s.trace := by
  unfold stream_decref
  split
  · rfl
  · split
    · rfl
    · split
      · rfl
      · rw [signals_andThen, signals_loop_decref]
        intro s1 _
        simp [Res.state, signals_append, signals]

theorem signals_run_closing (n : Nat) : ∀ s : State,
    signals (run_closing n s).state.trace = signals s.trace := by
  induction n with
  | zero => intro s; rfl
  | succ n ih =>
    intro s
    unfold run_closing
    split
    · rfl
    · rw [signals_andThen, stream_close_cb, signals_stream_decref]
      intro s1 _
      exact ih s1

theorem signals_stream_close_tail (s : State) (drain polls : Nat) :
    signals (stream_close_tail s drain polls).state.trace = signals s.trace := by
  unfold stream_close_tail
  split
  · rfl
  · simp only
    rw [signals_andThen, signals_run_closing]
    · simp [signals_append, signals_close_handles, signals]
    · intro s2 _
      split
      · rfl
      · split
        · exact signals_stream_decref s2
        · rw [signals_andThen, signals_stream_decref]
          intro s3 _
          split
          · rfl
          · split
            · simp [Res.state, signals_append, signals_reap]
            · rfl

/-! ## C1: `stream_close` is idempotent -/

/-- C1: a second `stream_close` on the memory left by a first one, for a stream
that is still allocated and whatever the arguments and the behaviour of the
loop, returns with memory, libuv state and trace unchanged: the stream and the
loop are the same and no call to libuv or the OS is made. -/
theorem stream_close_idempotent (s s1 : State) (stack stack2 : List LuaValue)
    (drain polls drain2 polls2 : Nat)
    (h1 : stream_close L s stack drain polls = .ok s1)
    (halloc : s1.stream.isSome = true)
    (hud : checkstream stack2 = true) :
    stream_close L s1 stack2 drain2 polls2 = .ok s1 := by
  obtain ⟨st1, hst1⟩ := Option.isSome_iff_exists.mp halloc
  have hc := stream_close_closed h1 st1 hst1
  unfold stream_close
  simp [hud, hst1, hc]

/-- Instance of C1: `close(1)` on a new child stream with one completion in the
drain, then `close(0)`. -/
theorem stream_close_idempotent_witness :
    stream_close sample_lua sample_child [stream_ud, .number (.of_int 1)] 1 2
        = .ok (stream_close sample_lua sample_child [stream_ud, .number (.of_int 1)] 1 2).state
      ∧ stream_close sample_lua (stream_close sample_lua sample_child [stream_ud, .number (.of_int 1)] 1 2).state
          [stream_ud, .number (.of_int 0)] 3 1
        = .ok (stream_close sample_lua sample_child [stream_ud, .number (.of_int 1)] 1 2).state :=
  ⟨by decide,
   stream_close_idempotent sample_child _ [stream_ud, .number (.of_int 1)] [stream_ud, .number (.of_int 0)]
     1 2 3 1 (by decide) (by decide) (by decide)⟩

/-! ## C4: the signal sent by `stream_close` -/

/-- C4 as stated fails: `close(true)` on a live child stream (not closed,
process not exited) sends no signal at all, because a Lua boolean does not
pass `lua_isnumber`. -/
theorem stream_close_boolean_sends_nothing :
    sample_child.stream
        = some { type := .StreamTypeChild, refcount := 4, reading := false
                 active := false, closed := false, exited := false }
      ∧ signals (stream_close sample_lua sample_child [stream_ud, .boolean true] 3 0).state.trace = [] := by
  decide

theorem checkstream_stream_ud (args : List LuaValue) :
    checkstream (stream_ud :: args) = true := by
  simp [checkstream, luaL_checkudata, lua_index, stream_ud]

theorem lua_index_two (v : LuaValue) (args : List LuaValue) :
    lua_index (v :: args) 2 = args.head? := by
  cases args <;> simp [lua_index]

/-- C4 (amended): on a stream that is not closed, `stream_close` sends the
signal selected by argument 2 when the stream is a child whose process has not
exited, exactly once, and sends nothing otherwise. A Lua number, or a string
that Lua converts to a number, selects SIGKILL when `luaL_checkint` makes a
non-zero `int` of it and SIGTERM when it makes zero; a boolean, nil, any other
value or an absent argument selects nothing. This holds for whatever the
conversions of the Lua library are (`L`). -/
theorem stream_close_signal (s : State) (st : UVStream) (args : List LuaValue)
    (drain polls : Nat) (hs : s.stream = some st) (hc : st.closed = false) :
    signals (stream_close L s (stream_ud :: args) drain polls).state.trace
      = signals s.trace ++
          (if st.type = .StreamTypeChild ∧ st.exited = false then
            (selected_signal L args.head?).toList
          else []) := by
  have hck := checkstream_stream_ud args
  have hidx := lua_index_two stream_ud args
  unfold stream_close
  simp only [hck, hs, hc]
  by_cases hch : st.type = .StreamTypeChild ∧ st.exited = false
  · rw [if_pos hch]
    cases args with
    | nil =>
      simp [lua_isnone, hidx, selected_signal, signals_stream_close_tail,
        signals_stream_close_head]
    | cons v rest =>
      have hk : ∀ x : Signal, signals [Action.kill x] = [x] := fun _ => rfl
      cases v with
      | string str =>
        cases hstr : L.str2number str <;>
          simp [lua_isnone, lua_isnumber, luaL_checkint, hidx, hch, selected_signal, hstr,
            signals_stream_close_tail, signals_stream_close_head, signals_append, hk]
      | _ =>
        simp [lua_isnone, lua_isnumber, luaL_checkint, hidx, hch, selected_signal,
          signals_stream_close_tail, signals_stream_close_head, signals_append, hk]
  · rw [if_neg hch]
    have : ¬ (st.type = .StreamTypeChild ∧ lua_isnone (stream_ud :: args) 2 = false
        ∧ lua_isnumber L (stream_ud :: args) 2 = true ∧ st.exited = false) := by
      intro h; exact hch ⟨h.1, h.2.2.2⟩
    simp [this, signals_stream_close_tail, signals_stream_close_head]

/-- Instance of C4 (amended), with the conversions `sample_lua`: on a live
child `close(1)` sends SIGKILL, `close(0)` sends SIGTERM, and so does
`close(0.5)`, which the cast to `int` truncates to zero. -/
theorem stream_close_signal_witness :
    signals (stream_close sample_lua sample_child [stream_ud, .number (.of_int 1)] 3 0).state.trace
        = [.SIGKILL]
      ∧ signals
          (stream_close sample_lua sample_child [stream_ud, .number (.of_int 0)] 3 0).state.trace
        = [.SIGTERM]
      ∧ signals
          (stream_close sample_lua sample_child [stream_ud, .number (.finite 1 1)] 3 0).state.trace
        = [.SIGTERM] :=
  ⟨(stream_close_signal sample_child
      { type := .StreamTypeChild, refcount := 4, reading := false
        active := false, closed := false, exited := false }
      [.number (.of_int 1)] 3 0 (by decide) (by decide)).trans (by decide),
   (stream_close_signal sample_child
      { type := .StreamTypeChild, refcount := 4, reading := false
        active := false, closed := false, exited := false }
      [.number (.of_int 0)] 3 0 (by decide) (by decide)).trans (by decide),
   (stream_close_signal sample_child
      { type := .StreamTypeChild, refcount := 4, reading := false
        active := false, closed := false, exited := false }
      [.number (.finite 1 1)] 3 0 (by decide) (by decide)).trans (by decide)⟩

/-! ## C2: argument check of `loop_spawn` -/

theorem spawn_argv_bad (rest : List LuaValue) : ∀ pre : List LuaValue,
    (∃ v ∈ rest, lua_type v ≠ .LUA_TSTRING) →
    spawn_argv (.table (pre ++ rest)) (List.range' (pre.length + 1) rest.length)
      = .error (.usage "`spawn` argv has non-string entries") := by
  induction rest with
  | nil => intro pre h; simp at h
  | cons v rest ih =>
    intro pre h
    have hget : lua_gettable (.table (pre ++ v :: rest)) (pre.length + 1) = some v := by
      have : (pre ++ v :: rest)[pre.length]? = some v := by
        rw [List.getElem?_append_right (le_refl _)]
        simp
      simp [lua_gettable, List.getD, this]
    rw [List.length_cons, List.range'_succ]
    unfold spawn_argv
    rw [hget]
    cases v with
    | string str =>
      have h2 : ∃ w ∈ rest, lua_type w ≠ .LUA_TSTRING := by
        obtain ⟨w, hw, hne⟩ := h
        rcases List.mem_cons.mp hw with rfl | hw
        · simp [lua_type] at hne
        · exact ⟨w, hw, hne⟩
      have := ih (pre ++ [.string str]) h2
      simp only [List.append_assoc, List.singleton_append, List.length_append,
        List.length_singleton] at this
      simp only [this]
    | _ => rfl

theorem spawn_argv_good (rest : List LuaValue) : ∀ pre : List LuaValue,
    (∀ v ∈ rest, lua_type v = .LUA_TSTRING) →
    ∃ l, spawn_argv (.table (pre ++ rest)) (List.range' (pre.length + 1) rest.length)
      = .ok l := by
  induction rest with
  | nil => intro pre _; exact ⟨[], rfl⟩
  | cons v rest ih =>
    intro pre h
    have hget : lua_gettable (.table (pre ++ v :: rest)) (pre.length + 1) = some v := by
      have : (pre ++ v :: rest)[pre.length]? = some v := by
        rw [List.getElem?_append_right (le_refl _)]
        simp
      simp [lua_gettable, List.getD, this]
    rw [List.length_cons, List.range'_succ]
    unfold spawn_argv
    rw [hget]
    have hv := h v (List.mem_cons_self _ _)
    cases v with
    | string str =>
      obtain ⟨l, hl⟩ := ih (pre ++ [.string str]) fun w hw => h w (List.mem_cons_of_mem _ hw)
      simp only [List.append_assoc, List.singleton_append, List.length_append,
        List.length_singleton] at hl
      exact ⟨str :: l, by simp only [hl]⟩
    | _ => simp [lua_type] at hv

/-- C2: `loop_spawn` called with the table `argv`. If `argv` is empty or one
of its elements is not of string type (a number included), the call raises a
usage error and memory, libuv state and trace are what they were: no stream,
no process, the loop untouched. If `argv` is non-empty and all its elements
are strings, no usage error is raised. -/
theorem loop_spawn_argv_check (s : State) (argv : List LuaValue) (status : Int)
    (drain polls : Nat) :
    ((argv = [] ∨ ∃ v ∈ argv, lua_type v ≠ .LUA_TSTRING) →
        ∃ msg, loop_spawn L s [loop_ud, .table argv] status drain polls
          = .error s (.usage msg))
    ∧ ((argv ≠ [] ∧ ∀ v ∈ argv, lua_type v = .LUA_TSTRING) →
        ∀ s1 msg, loop_spawn L s [loop_ud, .table argv] status drain polls
          ≠ .error s1 (.usage msg)) := by
  have hck : checkloop [loop_ud, .table argv] = true := by
    simp [checkloop, luaL_checkudata, lua_index, loop_ud]
  have hidx : lua_index [loop_ud, .table argv] 2 = some (.table argv) := by
    simp [lua_index]
  have htop : lua_top [loop_ud, .table argv] = some (.table argv) := by
    simp [lua_top]
  constructor
  · intro h
    unfold loop_spawn
    simp only [hck, hidx, htop]
    by_cases hlen : argv = []
    · subst hlen
      exact ⟨"`spawn` argv must have at least one string", by simp [lua_objlen]⟩
    · have hbad : ∃ v ∈ argv, lua_type v ≠ .LUA_TSTRING := by
        rcases h with h | h
        · exact absurd h hlen
        · exact h
      have := spawn_argv_bad argv [] hbad
      simp only [List.nil_append, List.length_nil, Nat.zero_add] at this
      have hl : ¬ argv.length = 0 := by simpa using hlen
      exact ⟨"`spawn` argv has non-string entries", by simp [lua_objlen, hl, this]⟩
  · intro ⟨hne, hall⟩ s1 msg
    obtain ⟨l, hl⟩ := spawn_argv_good argv [] hall
    simp only [List.nil_append, List.length_nil, Nat.zero_add] at hl
    have hlen : ¬ argv.length = 0 := by simpa using hne
    have hcs : checkstream [loop_ud, .table argv, LuaValue.userdata none] = false := by
      simp [checkstream, luaL_checkudata, lua_index, loop_ud]
    unfold loop_spawn
    simp only [hck, hidx, htop, lua_objlen, hlen, hl]
    cases hloop : s.loop with
    | none => simp
    | some lp =>
      by_cases hst : status = 0
      · simp [hst]
      · simp [hst, stream_close, hcs, Res.andThen]

/-- Instance of C2: a number in argv is refused, two strings are accepted. -/
theorem loop_spawn_argv_check_witness :
    (∃ msg, loop_spawn sample_lua sample_loop [loop_ud, .table [.string "ls", .number (.of_int 1)]] 0 0 0
        = .error sample_loop (.usage msg))
    ∧ (∀ s1 msg, loop_spawn sample_lua sample_loop [loop_ud, .table [.string "ls", .string "-l"]] 0 0 0
        ≠ .error s1 (.usage msg)) :=
  ⟨(loop_spawn_argv_check sample_loop [.string "ls", .number (.of_int 1)] 0 0 0).1
      (Or.inr ⟨.number (.of_int 1), by simp, by simp [lua_type]⟩),
   (loop_spawn_argv_check sample_loop [.string "ls", .string "-l"] 0 0 0).2
      ⟨by simp, by simp [lua_type]⟩⟩

/-! ## C3: usage errors of `loop_run` -/

/-- C3 as stated fails: after a bounded run the loop keeps `timeout = 500`; a
later `run(-1)` raises the usage error but has already reset `timeout` to 0. -/
theorem loop_run_negative_resets_timeout :
    sample_bounded.loop
        = some { running := false, refcount := 1, timeout := 500
                 prepare_active := false, timer_active := false }
      ∧ loop_run sample_lua sample_bounded [loop_ud, .number (.of_int (-1))] id
          = .error
              { sample_bounded with
                loop := some { running := false, refcount := 1, timeout := 0
                               prepare_active := false, timer_active := false } }
              (.usage "Timeout argument must be a positive integer") := by
  decide

/-- C3 (amended): when `loop_run` raises a usage error the running flag, the
refcount and the started state of the prepare hook and the timer are as before
the call, and so are the stream and the trace. The `timeout` field is as
before for the re-entrant call and is 0 after the negative-timeout error. -/
theorem loop_run_usage_error (s : State) (l : UVLoop) (args : List LuaValue)
    (env : State → State) (hs : s.loop = some l) :
    (l.running = true →
        loop_run L s (loop_ud :: args) env = .error s (.usage "Loop already running"))
    ∧ (l.running = false →
        ∀ t, luaL_checkint L (loop_ud :: args) 2 = some t → t < 0 →
          loop_run L s (loop_ud :: args) env
            = .error { s with loop := some { l with timeout := 0 } }
                (.usage "Timeout argument must be a positive integer")) := by
  have hck : checkloop (loop_ud :: args) = true := by
    simp [checkloop, luaL_checkudata, lua_index, loop_ud]
  constructor
  · intro hr
    unfold loop_run
    simp [hck, hs, hr]
  · intro hr t ht hneg
    have hnn : lua_isnoneornil (loop_ud :: args) 2 = false := by
      unfold luaL_checkint at ht
      unfold lua_isnoneornil
      split at ht <;> simp_all
    unfold loop_run
    simp [hck, hs, hr, hnn, ht, hneg]

/-- Instance of C3 (amended): `run(-1)` after a bounded run. -/
theorem loop_run_usage_error_witness :
    loop_run sample_lua sample_bounded [loop_ud, .number (.of_int (-1))] id
      = .error
          { sample_bounded with
            loop := some { running := false, refcount := 1, timeout := 0
                           prepare_active := false, timer_active := false } }
          (.usage "Timeout argument must be a positive integer") :=
  (loop_run_usage_error sample_bounded
      { running := false, refcount := 1, timeout := 500
        prepare_active := false, timer_active := false }
      [.number (.of_int (-1))] id (by decide)).2 (by decide) (-1) (by decide) (by decide)

/-! ## C5: unwinding after a launch failure -/

/-- C5: at a launch failure the unwind does not take place. `stream_close(L)`
looks for the stream at argument 1, which holds the loop, so `checkstream`
raises a type error: the new stream keeps refcount 2 and is neither closed
nor freed, no handle is closed, and the loop's refcount stays incremented.
Shown for `loop_spawn` with `uv_spawn` failing (status -2) and for
`loop_stdio` with `uv_pipe_open` failing (status -9), even when the loop would
run every close callback in the drain. -/
theorem launch_failure_skips_unwind :
    loop_spawn sample_lua sample_loop [loop_ud, .table [.string "/nonexistent"]] (-2) 3 0
        = .error
            { loop := some { running := false, refcount := 2, timeout := 0
                             prepare_active := false, timer_active := false }
              stream := some { type := .StreamTypeChild, refcount := 2, reading := false
                               active := false, closed := false, exited := true }
              closing := []
              buf := { len := 0, base := .NULL }
              trace := [.uv_spawn ["/nonexistent"]] }
            (.type_error 1)
      ∧ loop_stdio sample_lua sample_loop [loop_ud] (-9) 0 2 0
        = .error
            { loop := some { running := false, refcount := 2, timeout := 0
                             prepare_active := false, timer_active := false }
              stream := some { type := .StreamTypeStdio, refcount := 2, reading := false
                               active := false, closed := false, exited := false }
              closing := []
              buf := { len := 0, base := .NULL }
              trace := [.uv_pipe_open 0] }
            (.type_error 1)
      ∧ sample_loop.loop
        = some { running := false, refcount := 1, timeout := 0
                 prepare_active := false, timer_active := false } := by
  decide

/-- Second defect behind C5, on the spawn path: were `stream_close` given the
new stream, it would issue three closes against a refcount of 2 (3 with the
temporary reference). When all three complete in the drain the stream is freed
inside the drain and `stream_close` then reads it. -/
theorem spawn_unwind_overruns_refcount :
    (stream_close sample_lua
        { loop := some { running := false, refcount := 2, timeout := 0
                         prepare_active := false, timer_active := false }
          stream := some { type := .StreamTypeChild, refcount := 2, reading := false
                           active := false, closed := false, exited := true }
          closing := []
          buf := { len := 0, base := .NULL }
          trace := [] }
        [stream_ud] 3 0).failure = some .use_after_free := by
  decide

/-! ## C6: the closed flag -/

/-- C6 as stated fails: on a stream that is closed and still allocated,
`stream_read_start` calls `uv_read_start` and sets `active`, and
`stream_write` calls `uv_write`. -/
theorem closed_stream_still_reads_and_writes :
    sample_closed.stream
        = some { type := .StreamTypeStdio, refcount := 3, reading := false
                 active := false, closed := true, exited := false }
      ∧ stream_read_start sample_closed [stream_ud, .function]
        = .ok { sample_closed with
                stream := some { type := .StreamTypeStdio, refcount := 3, reading := false
                                 active := true, closed := true, exited := false }
                trace := sample_closed.trace ++ [.luaL_ref, .uv_read_start] }
      ∧ stream_write sample_lua sample_closed [stream_ud, .string "ping"]
        = .ok { sample_closed with trace := sample_closed.trace ++ [.uv_write 4] } := by
  decide

theorem StreamKept.closed {s s1 : State} (h : StreamKept s s1) (hc : ClosedOrFreed s) :
    ClosedOrFreed s1 := by
  intro st1 hst1
  rcases h with h | ⟨st, n, h, h2⟩
  · rw [h] at hst1; simp at hst1
  · rw [h2] at hst1
    simp at hst1
    subst hst1
    exact hc st h

theorem run_closing_freed (n : Nat) {s s1 : State} (hs : s.stream = none)
    (h : run_closing n s = .ok s1) : s1 = s := by
  cases n with
  | zero => simp [run_closing] at h; exact h.symm
  | succ n =>
    unfold run_closing at h
    split at h
    · simp at h; exact h.symm
    · simp [stream_close_cb, stream_decref, hs, Res.andThen] at h

theorem step_closed {s s1 : State} {e : Event} (hc : ClosedOrFreed s)
    (h : step L s e = .ok s1) : ClosedOrFreed s1 := by
  cases e with
  | alloc =>
    simp only [step, alloc_cb] at h
    split at h
    · simp at h
    · rename_i st hst
      split at h <;> (simp at h; subst h)
      · exact hc
      · intro st1 hst1
        simp at hst1; subst hst1
        exact hc st hst
  | read cnt =>
    simp only [step] at h
    obtain ⟨s2, h2, h3⟩ := andThen_eq_ok h
    simp at h3; subst h3
    unfold read_cb at h2
    split at h2
    · simp at h2
    · rename_i st hst
      split at h2
      · split at h2 <;> (simp at h2; subst h2; exact hc)
      · simp at h2; subst h2
        intro st1 hst1
        simp at hst1; subst hst1
        exact hc st hst
  | exit =>
    simp only [step, exit_cb] at h
    split at h
    · simp at h
    · rename_i st hst
      simp at h; subst h
      intro st1 hst1
      simp at hst1; subst hst1
      exact hc st hst
  | close_done =>
    simp only [step] at h
    cases hs : s.stream with
    | none => rw [run_closing_freed 1 hs h]; exact hc
    | some st => exact (run_closing_kept 1 h (by simp [hs])).1.closed hc
  | read_start args =>
    simp only [step, stream_read_start] at h
    split at h
    · simp at h
    · split at h
      · simp at h
      · rename_i st hst
        simp at h; subst h
        intro st1 hst1
        simp at hst1; subst hst1
        exact hc st hst
  | read_stop args =>
    simp only [step, stream_read_stop] at h
    split at h
    · simp at h
    · split at h
      · simp at h
      · rename_i st hst
        simp at h; subst h
        intro st1 hst1
        simp at hst1; subst hst1
        exact hc st hst
  | write args =>
    simp only [step, stream_write] at h
    split at h
    · simp at h
    · split at h
      · simp at h
      · split at h
        · simp at h
        · simp at h; subst h; exact hc
  | close args drain polls =>
    simp only [step] at h
    exact stream_close_closed h
  | delete drain polls =>
    simp only [step, stream_delete] at h
    split at h
    · simp at h
    · obtain ⟨s2, h2, h3⟩ := andThen_eq_ok h
      exact (stream_decref_kept h3).closed (stream_close_closed h2)

theorem run_closed (evs : List Event) : ∀ {s s1 : State}, ClosedOrFreed s →
    run L s evs = .ok s1 → ClosedOrFreed s1 := by
  induction evs with
  | nil => intro s s1 hc h; simp [run] at h; subst h; exact hc
  | cons e es ih =>
    intro s s1 hc h
    simp only [run] at h
    obtain ⟨s2, h2, h3⟩ := andThen_eq_ok h
    exact ih (step_closed hc h2) h3

/-- Callbacks and calls other than `close` and the host release leave
`closed` as it is. -/
theorem step_keeps_closed {s s1 : State} {st st1 : UVStream} {e : Event}
    (hs : s.stream = some st) (he : e.is_close = false)
    (h : step L s e = .ok s1) (hs1 : s1.stream = some st1) : st1.closed = st.closed := by
  cases e with
  | alloc =>
    simp only [step, alloc_cb, hs] at h
    split at h <;> (simp at h; subst h; simp [hs] at hs1; subst hs1; rfl)
  | read cnt =>
    simp only [step] at h
    obtain ⟨s2, h2, h3⟩ := andThen_eq_ok h
    simp at h3; subst h3
    simp only [read_cb, hs] at h2
    split at h2
    · split at h2 <;> (simp at h2; subst h2; simp [hs] at hs1; subst hs1; rfl)
    · simp at h2; subst h2
      simp at hs1; subst hs1; rfl
  | exit =>
    simp only [step, exit_cb, hs] at h
    simp at h; subst h
    simp at hs1; subst hs1; rfl
  | close_done =>
    simp only [step] at h
    rcases (run_closing_kept 1 h (by simp [hs])).1 with h1 | ⟨st0, n, h1, h2⟩
    · rw [h1] at hs1; simp at hs1
    · rw [hs] at h1
      simp at h1; subst h1
      rw [h2] at hs1
      simp at hs1; subst hs1; rfl
  | read_start args =>
    simp only [step, stream_read_start, checkstream_stream_ud, hs] at h
    simp at h; subst h
    simp at hs1; subst hs1; rfl
  | read_stop args =>
    simp only [step, stream_read_stop, checkstream_stream_ud, hs] at h
    simp at h; subst h
    simp at hs1; subst hs1; rfl
  | write args =>
    simp only [step, stream_write, checkstream_stream_ud] at h
    split at h
    · simp at h
    · simp only [hs] at h
      split at h
      · simp at h
      · simp at h
        subst h
        simp at hs1
        subst hs1
        rfl
  | close args drain polls => simp [Event.is_close] at he
  | delete drain polls => simp [Event.is_close] at he

/-- After `close` or the host release, a stream that is still allocated is
closed. -/
theorem step_close_sets {s s1 : State} {st1 : UVStream} {e : Event}
    (he : e.is_close = true) (h : step L s e = .ok s1) (hs1 : s1.stream = some st1) :
    st1.closed = true := by
  cases e with
  | close args drain polls =>
    simp only [step] at h
    exact stream_close_closed h st1 hs1
  | delete drain polls =>
    simp only [step, stream_delete] at h
    split at h
    · simp at h
    · obtain ⟨s2, h2, h3⟩ := andThen_eq_ok h
      exact (stream_decref_kept h3).closed (stream_close_closed h2) st1 hs1
  | _ => simp [Event.is_close] at he

/-- C6 (amended): for every allocated stream, `closed` is set only by
`stream_close` (called by `close` or by the host release) and never reset:
every other callback or call leaves the flag exactly as it is, and after
`stream_close` it is true. So once true it stays true, after any sequence of
callbacks and calls that returns, for as long as the stream is allocated.
`stream_read_start` and `stream_write` do not look at `closed`: whatever its
value, also on a closed stream, `stream_read_start` calls `uv_read_start` and
sets `active`, and `stream_write` calls `uv_write` on the sink. -/
theorem closed_set_once_never_reset (s : State) (st : UVStream) (hs : s.stream = some st) :
    (∀ e s1 st1, step L s e = .ok s1 → s1.stream = some st1 →
        (e.is_close = false → st1.closed = st.closed)
        ∧ (e.is_close = true → st1.closed = true))
    ∧ (st.closed = true →
        ∀ evs s1 st1, run L s evs = .ok s1 → s1.stream = some st1 → st1.closed = true)
    ∧ (∀ args, stream_read_start s (stream_ud :: args)
        = .ok { s with
                stream := some { st with active := true }
                trace := s.trace ++ [.luaL_ref, .uv_read_start] })
    ∧ (∀ args len, luaL_checklstring L (stream_ud :: args) = some len →
        stream_write L s (stream_ud :: args)
          = .ok { s with trace := s.trace ++ [.uv_write len] }) := by
  refine ⟨?_, ?_, ?_, ?_⟩
  · intro e s1 st1 h hs1
    exact ⟨fun he => step_keeps_closed hs he h hs1, fun he => step_close_sets he h hs1⟩
  · intro hc evs s1 st1 h hst1
    have hcs : ClosedOrFreed s := by
      intro st0 h0
      rw [hs] at h0; simp at h0; subst h0; exact hc
    exact run_closed evs hcs h st1 hst1
  · intro args
    simp [stream_read_start, checkstream_stream_ud, hs]
  · intro args len hlen
    simp [stream_write, checkstream_stream_ud, hs, hlen]

/-- Instance of C6 (amended) on a closed stdio stream. -/
theorem closed_set_once_never_reset_witness :
    (∀ e s1 st1, step sample_lua sample_closed e = .ok s1 → s1.stream = some st1 →
        (e.is_close = false → st1.closed = true) ∧ (e.is_close = true → st1.closed = true))
    ∧ (∀ evs s1 st1, run sample_lua sample_closed evs = .ok s1 → s1.stream = some st1 →
        st1.closed = true)
    ∧ (∀ args, stream_read_start sample_closed (stream_ud :: args)
        = .ok { sample_closed with
                stream := some { type := .StreamTypeStdio, refcount := 3, reading := false
                                 active := true, closed := true, exited := false }
                trace := sample_closed.trace ++ [.luaL_ref, .uv_read_start] })
    ∧ (∀ args len, luaL_checklstring sample_lua (stream_ud :: args) = some len →
        stream_write sample_lua sample_closed (stream_ud :: args)
          = .ok { sample_closed with trace := sample_closed.trace ++ [.uv_write len] }) :=
  ⟨(closed_set_once_never_reset sample_closed
      { type := .StreamTypeStdio, refcount := 3, reading := false
        active := false, closed := true, exited := false }
      (by decide)).1,
   (closed_set_once_never_reset sample_closed
      { type := .StreamTypeStdio, refcount := 3, reading := false
        active := false, closed := true, exited := false }
      (by decide)).2.1 rfl,
   (closed_set_once_never_reset sample_closed
      { type := .StreamTypeStdio, refcount := 3, reading := false
        active := false, closed := true, exited := false }
      (by decide)).2.2⟩

/-! ## What the close path appends to the trace -/

theorem Emits.same (p : Action → Bool) (s : State) : Emits p s.trace (.ok s) :=
  ⟨[], by simp [Res.state], by simp⟩

theorem Emits.of_ext {p : Action → Bool} {tr : List Action} {r : Res} (ext : List Action)
    (h : r.state.trace = tr ++ ext) (hp : ∀ a ∈ ext, p a = true) : Emits p tr r :=
  ⟨ext, h, hp⟩

theorem Emits.mono {p q : Action → Bool} {tr : List Action} {r : Res}
    (h : Emits p tr r) (hpq : ∀ a, p a = true → q a = true) : Emits q tr r := by
  obtain ⟨ext, h1, h2⟩ := h
  exact ⟨ext, h1, fun a ha => hpq a (h2 a ha)⟩

theorem Emits.andThen {p : Action → Bool} {tr : List Action} {r : Res} {f : State → Res}
    (h : Emits p tr r) (hf : ∀ s1, r = .ok s1 → Emits p s1.trace (f s1)) :
    Emits p tr (r.andThen f) := by
  cases r with
  | ok s1 =>
    obtain ⟨e1, h1, h2⟩ := h
    obtain ⟨e2, h3, h4⟩ := hf s1 rfl
    refine ⟨e1 ++ e2, ?_, ?_⟩
    · simp only [Res.andThen]
      rw [h3]
      simp only [Res.state] at h1
      rw [h1, List.append_assoc]
    · intro a ha
      rcases List.mem_append.mp ha with ha | ha
      · exact h2 a ha
      · exact h4 a ha
  | error s1 e => exact h
  | fault s1 x => exact h

theorem Emits.prepend {p : Action → Bool} {tr : List Action} (pre : List Action) {r : Res}
    (h : Emits p (tr ++ pre) r) (hp : ∀ a ∈ pre, p a = true) : Emits p tr r := by
  obtain ⟨ext, h1, h2⟩ := h
  refine ⟨pre ++ ext, by rw [h1, List.append_assoc], ?_⟩
  intro a ha
  rcases List.mem_append.mp ha with ha | ha
  · exact hp a ha
  · exact h2 a ha

theorem emits_loop_decref (s : State) : Emits close_path_action s.trace (loop_decref s) := by
  unfold loop_decref
  split
  · exact Emits.of_ext [] (by simp [Res.state]) (by simp)
  · split
    · exact Emits.of_ext [] (by simp [Res.state]) (by simp)
    · split
      · exact Emits.of_ext [] (by simp [Res.state]) (by simp)
      · exact Emits.of_ext [.loop_close, .free_loop] (by simp [Res.state])
          (by simp [close_path_action])

theorem emits_stream_decref (s : State) :
    Emits close_path_action s.trace (stream_decref s) := by
  unfold stream_decref
  split
  · exact Emits.of_ext [] (by simp [Res.state]) (by simp)
  · split
    · exact Emits.of_ext [] (by simp [Res.state]) (by simp)
    · split
      · exact Emits.of_ext [] (by simp [Res.state]) (by simp)
      · refine Emits.andThen (emits_loop_decref _) ?_
        intro s1 _
        exact Emits.of_ext [.free_stream] (by simp [Res.state]) (by simp [close_path_action])

theorem emits_run_closing (n : Nat) : ∀ s : State,
    Emits close_path_action s.trace (run_closing n s) := by
  induction n with
  | zero => intro s; exact Emits.same _ s
  | succ n ih =>
    intro s
    unfold run_closing
    split
    · exact Emits.same _ s
    · refine Emits.andThen (emits_stream_decref _) ?_
      intro s1 _
      exact ih s1

theorem emits_stream_close_tail (s : State) (drain polls : Nat) :
    Emits close_path_action s.trace (stream_close_tail s drain polls) := by
  unfold stream_close_tail
  split
  · exact Emits.of_ext [] (by simp [Res.state]) (by simp)
  · rename_i st hst
    simp only
    have hre : ∀ n a, a ∈ reap_actions n → close_path_action a = true := by
      intro n
      induction n with
      | zero => intro a ha; simp [reap_actions] at ha; subst ha; rfl
      | succ n ih =>
        intro a ha
        simp only [reap_actions, List.mem_cons] at ha
        rcases ha with rfl | rfl | ha
        · rfl
        · rfl
        · exact ih a ha
    refine Emits.prepend ((close_handles st.type).map Action.uv_close
        ++ [.uv_run .UV_RUN_NOWAIT]) ?_ ?_
    · rw [← List.append_assoc]
      refine Emits.andThen (emits_run_closing drain _) ?_
      intro s2 _
      split
      · exact Emits.of_ext [] (by simp [Res.state]) (by simp)
      · split
        · exact emits_stream_decref s2
        · refine Emits.andThen (emits_stream_decref s2) ?_
          intro s3 _
          split
          · exact Emits.of_ext [] (by simp [Res.state]) (by simp)
          · split
            · exact Emits.of_ext (reap_actions polls) (by simp [Res.state]) (hre polls)
            · exact Emits.same _ s3
    · intro a ha
      rcases List.mem_append.mp ha with ha | ha
      · obtain ⟨h, _, rfl⟩ := List.mem_map.mp ha
        rfl
      · simp at ha; subst ha; rfl

theorem emits_stream_close (s : State) (stack : List LuaValue) (drain polls : Nat) :
    Emits close_path_action s.trace (stream_close L s stack drain polls) := by
  unfold stream_close
  split
  · exact Emits.of_ext [] (by simp [Res.state]) (by simp)
  · split
    · exact Emits.of_ext [] (by simp [Res.state]) (by simp)
    · rename_i st hst
      split
      · exact Emits.same _ s
      · have hhead : ∃ pre, (stream_close_head s st).trace = s.trace ++ pre
            ∧ ∀ a ∈ pre, close_path_action a = true := by
          unfold stream_close_head
          split
          · exact ⟨[.uv_read_stop], rfl, by simp [close_path_action]⟩
          · exact ⟨[], by simp, by simp⟩
        obtain ⟨pre, hpre, hp⟩ := hhead
        simp only
        split
        · split
          · exact Emits.of_ext pre (by simpa [Res.state] using hpre) hp
          · rename_i sigkill _
            have := emits_stream_close_tail
              { stream_close_head s st with
                trace := (stream_close_head s st).trace
                  ++ [.kill (if sigkill ≠ 0 then .SIGKILL else .SIGTERM)] } drain polls
            simp only [hpre, List.append_assoc] at this
            refine Emits.prepend _ (by simpa [hpre] using this) ?_
            intro a ha
            rcases List.mem_append.mp ha with ha | ha
            · exact hp a ha
            · simp at ha; subst ha; rfl
        · have := emits_stream_close_tail (stream_close_head s st) drain polls
          rw [hpre] at this
          exact Emits.prepend _ this hp

theorem emits_stream_delete (s : State) (stack : List LuaValue) (drain polls : Nat) :
    Emits close_path_action s.trace (stream_delete L s stack drain polls) := by
  unfold stream_delete
  split
  · exact Emits.of_ext [] (by simp [Res.state]) (by simp)
  · exact Emits.andThen (emits_stream_close s stack drain polls) fun s1 _ =>
      emits_stream_decref s1

/-! ## C10: a failed read leaves the read path stuck -/

theorem StreamKept.reading {s s1 : State} (h : StreamKept s s1) : ReadingKept s s1 := by
  intro st1 hst1
  rcases h with h | ⟨st, n, h, h2⟩
  · rw [h] at hst1; simp at hst1
  · rw [h2] at hst1
    simp at hst1
    subst hst1
    exact ⟨st, h, rfl⟩

theorem readingKept_trans {s s1 s2 : State} (h1 : ReadingKept s s1) (h2 : ReadingKept s1 s2) :
    ReadingKept s s2 := by
  intro st2 hst2
  obtain ⟨st1, hst1, hr⟩ := h2 st2 hst2
  obtain ⟨st, hst, hr1⟩ := h1 st1 hst1
  exact ⟨st, hst, hr.trans hr1⟩

theorem stream_close_reading {s s1 : State} {stack : List LuaValue} {drain polls : Nat}
    (h : stream_close L s stack drain polls = .ok s1) :
    ReadingKept s s1 ∧ s1.buf = s.buf := by
  unfold stream_close at h
  split at h
  · simp at h
  · split at h
    · simp at h
    · rename_i st hst
      split at h
      · simp at h; subst h
        exact ⟨fun st1 h1 => ⟨st1, h1, rfl⟩, rfl⟩
      · simp only at h
        have key : ∀ tr : List Action,
            stream_close_tail { stream_close_head s st with trace := tr } drain polls = .ok s1 →
            ReadingKept s s1 ∧ s1.buf = s.buf := by
          intro tr ht
          have hk := stream_close_tail_kept ht
          refine ⟨?_, hk.2.trans (stream_close_head_frame s st).2.2⟩
          intro st1 hst1
          obtain ⟨st0, h0, hr⟩ := hk.1.reading st1 hst1
          simp only [stream_close_head_stream] at h0
          simp at h0; subst h0
          exact ⟨st, hst, hr⟩
        split at h
        · split at h
          · simp at h
          · exact key _ h
        · exact key _ (by simpa using h)

theorem stream_delete_reading {s s1 : State} {stack : List LuaValue} {drain polls : Nat}
    (h : stream_delete L s stack drain polls = .ok s1) :
    ReadingKept s s1 ∧ s1.buf = s.buf := by
  unfold stream_delete at h
  split at h
  · simp at h
  · obtain ⟨s2, h2, h3⟩ := andThen_eq_ok h
    have hc := stream_close_reading h2
    exact ⟨readingKept_trans hc.1 (stream_decref_kept h3).reading,
      (stream_decref_frame h3).2.2.trans hc.2⟩

theorem Stuck.of_kept {s s1 : State} (hs : Stuck s) (hk : ReadingKept s s1)
    (hb : s1.buf = s.buf) : Stuck s1 := by
  refine ⟨?_, by rw [hb]; exact hs.2⟩
  intro st1 hst1
  obtain ⟨st, hst, hr⟩ := hk st1 hst1
  rw [hr]
  exact hs.1 st hst

theorem step_stuck {s s1 : State} {e : Event} (hs : Stuck s)
    (hfit : ∀ cnt, e = .read cnt → cnt ≤ (s.buf.len : Int))
    (h : step L s e = .ok s1) : Stuck s1 := by
  cases e with
  | alloc =>
    simp only [step, alloc_cb] at h
    split at h
    · simp at h
    · rename_i st hst
      have hr := hs.1 st hst
      simp [hr] at h
      subst h
      exact ⟨hs.1, rfl⟩
  | read cnt =>
    have hc : cnt ≤ 0 := by
      have := hfit cnt rfl
      rw [hs.2] at this
      simpa using this
    simp only [step] at h
    obtain ⟨s2, h2, h3⟩ := andThen_eq_ok h
    simp at h3; subst h3
    unfold read_cb at h2
    split at h2
    · simp at h2
    · simp only [hc, if_true] at h2
      split at h2 <;> (simp at h2; subst h2; exact ⟨hs.1, rfl⟩)
  | exit =>
    simp only [step, exit_cb] at h
    split at h
    · simp at h
    · rename_i st hst
      simp at h; subst h
      refine ⟨?_, hs.2⟩
      intro st1 hst1
      simp at hst1; subst hst1
      exact hs.1 st hst
  | close_done =>
    simp only [step] at h
    cases hst : s.stream with
    | none => rw [run_closing_freed 1 hst h]; exact hs
    | some st =>
      have hk := run_closing_kept 1 h (by simp [hst])
      exact hs.of_kept hk.1.reading hk.2
  | read_start args =>
    simp only [step, stream_read_start] at h
    split at h
    · simp at h
    · split at h
      · simp at h
      · rename_i st hst
        simp at h; subst h
        refine ⟨?_, hs.2⟩
        intro st1 hst1
        simp at hst1; subst hst1
        exact hs.1 st hst
  | read_stop args =>
    simp only [step, stream_read_stop] at h
    split at h
    · simp at h
    · split at h
      · simp at h
      · rename_i st hst
        simp at h; subst h
        refine ⟨?_, hs.2⟩
        intro st1 hst1
        simp at hst1; subst hst1
        exact hs.1 st hst
  | write args =>
    simp only [step, stream_write] at h
    split at h
    · simp at h
    · split at h
      · simp at h
      · split at h
        · simp at h
        · simp at h; subst h; exact hs
  | close args drain polls =>
    simp only [step] at h
    have hk := stream_close_reading h
    exact hs.of_kept hk.1 hk.2
  | delete drain polls =>
    simp only [step] at h
    have hk := stream_delete_reading h
    exact hs.of_kept hk.1 hk.2

theorem close_path_no_data (a : Action) (h : close_path_action a = true) :
    no_data a = true := by
  cases a <;> simp_all [close_path_action, no_data]

theorem emits_step_stuck {s : State} {e : Event} (hs : Stuck s)
    (hfit : ∀ cnt, e = .read cnt → cnt ≤ (s.buf.len : Int)) :
    Emits no_data s.trace (step L s e) := by
  cases e with
  | alloc =>
    simp only [step, alloc_cb]
    split
    · exact Emits.of_ext [] (by simp [Res.state]) (by simp)
    · rename_i st hst
      have hr := hs.1 st hst
      simp only [hr, if_true]
      exact Emits.of_ext [.alloc 0] (by simp [Res.state]) (by simp [no_data])
  | read cnt =>
    have hc : cnt ≤ 0 := by
      have := hfit cnt rfl
      rw [hs.2] at this
      simpa using this
    simp only [step]
    refine Emits.andThen ?_ fun s1 _ => Emits.of_ext [] (by simp [Res.state]) (by simp)
    unfold read_cb
    split
    · exact Emits.of_ext [] (by simp [Res.state]) (by simp)
    · simp only [hc, if_true]
      split
      · exact Emits.of_ext [.uv_read_stop, .uv_stop] (by simp [Res.state]) (by simp [no_data])
      · exact Emits.same _ s
  | exit =>
    simp only [step, exit_cb]
    split <;> exact Emits.of_ext [] (by simp [Res.state]) (by simp)
  | close_done => exact (emits_run_closing 1 s).mono close_path_no_data
  | read_start args =>
    simp only [step, stream_read_start]
    split
    · exact Emits.of_ext [] (by simp [Res.state]) (by simp)
    · split
      · exact Emits.of_ext [] (by simp [Res.state]) (by simp)
      · exact Emits.of_ext [.luaL_ref, .uv_read_start] (by simp [Res.state]) (by simp [no_data])
  | read_stop args =>
    simp only [step, stream_read_stop]
    split
    · exact Emits.of_ext [] (by simp [Res.state]) (by simp)
    · split
      · exact Emits.of_ext [] (by simp [Res.state]) (by simp)
      · exact Emits.of_ext [.uv_read_stop, .luaL_unref] (by simp [Res.state]) (by simp [no_data])
  | write args =>
    simp only [step, stream_write]
    split
    · exact Emits.of_ext [] (by simp [Res.state]) (by simp)
    · split
      · exact Emits.of_ext [] (by simp [Res.state]) (by simp)
      · split
        · exact Emits.of_ext [] (by simp [Res.state]) (by simp)
        · exact ⟨_, rfl, by simp [no_data]⟩
  | close args drain polls => exact (emits_stream_close s _ drain polls).mono close_path_no_data
  | delete drain polls => exact (emits_stream_delete s _ drain polls).mono close_path_no_data

theorem reads_fit_cons {s : State} {e : Event} {es : List Event}
    (h : reads_fit L s (e :: es) = true) :
    (∀ cnt, e = .read cnt → cnt ≤ (s.buf.len : Int))
      ∧ ∀ s1, step L s e = .ok s1 → reads_fit L s1 es = true := by
  simp only [reads_fit, Bool.and_eq_true] at h
  constructor
  · intro cnt he
    subst he
    simpa using h.1
  · intro s1 hs1
    have := h.2
    rw [hs1] at this
    exact this

theorem run_stuck (evs : List Event) : ∀ s : State, Stuck s → reads_fit L s evs = true →
    Emits no_data s.trace (run L s evs) ∧ ∀ s1, run L s evs = .ok s1 → Stuck s1 := by
  induction evs with
  | nil =>
    intro s hs _
    exact ⟨Emits.same _ s, fun s1 h => by simp [run] at h; subst h; exact hs⟩
  | cons e es ih =>
    intro s hs hfit
    obtain ⟨hf1, hf2⟩ := reads_fit_cons hfit
    simp only [run]
    constructor
    · exact Emits.andThen (emits_step_stuck hs hf1) fun s1 h1 =>
        (ih s1 (step_stuck hs hf1 h1) (hf2 s1 h1)).1
    · intro s1 h
      obtain ⟨s2, h2, h3⟩ := andThen_eq_ok h
      exact (ih s2 (step_stuck hs hf1 h2) (hf2 s2 h2)).2 s1 h3

/-- C10: `alloc_cb` offers the read buffer of a stream that is not reading and
the read completion that follows reports a count `cnt <= 0` (end of stream, an
error, or `UV_ENOBUFS`). Then `read_cb` returns with `reading` still set, and
whatever happens next (callbacks, `read_start`, `read_stop`, `write`, `close`,
the host release, in any number and order, under libuv's read protocol) the
trace holds after that one offer only empty offers and no delivery to the data
callback, and a stream that is still allocated has `reading` set. -/
theorem failed_read_sticks (s : State) (st : UVStream) (cnt : Int) (evs : List Event)
    (hs : s.stream = some st) (hr : st.reading = false) (hcnt : cnt ≤ 0)
    (hfit : reads_fit L s (.alloc :: .read cnt :: evs) = true) :
    (∃ s1, run L s [.alloc, .read cnt] = .ok s1
        ∧ s1.stream = some { st with reading := true })
    ∧ (∃ ext, (run L s (.alloc :: .read cnt :: evs)).state.trace
          = s.trace ++ .alloc READ_BUFFER_SIZE :: ext
        ∧ ∀ a ∈ ext, no_data a = true)
    ∧ (∀ s2 st2, run L s (.alloc :: .read cnt :: evs) = .ok s2 → s2.stream = some st2 →
        st2.reading = true) := by
  obtain ⟨_, hf2⟩ := reads_fit_cons hfit
  have ha : step L s .alloc = .ok
      { s with
        buf := { len := READ_BUFFER_SIZE, base := .read_buffer }
        stream := some { st with reading := true }
        trace := s.trace ++ [.alloc READ_BUFFER_SIZE] } := by
    simp [step, alloc_cb, hs, hr]
  have hfit1 := hf2 _ ha
  obtain ⟨_, hf3⟩ := reads_fit_cons hfit1
  -- the failed read
  have hb : ∃ s1, step L
      { s with
        buf := { len := READ_BUFFER_SIZE, base := .read_buffer }
        stream := some { st with reading := true }
        trace := s.trace ++ [.alloc READ_BUFFER_SIZE] } (.read cnt) = .ok s1
      ∧ s1.stream = some { st with reading := true } ∧ s1.buf.len = 0
      ∧ ∃ e1, s1.trace = s.trace ++ .alloc READ_BUFFER_SIZE :: e1
          ∧ ∀ a ∈ e1, no_data a = true := by
    simp only [step, read_cb, hcnt, if_true]
    by_cases he : cnt = UV_ENOBUFS
    · exact ⟨{ s with
          buf := { len := 0, base := .NULL }
          stream := some { st with reading := true }
          trace := s.trace ++ [.alloc READ_BUFFER_SIZE] },
        by simp [he, Res.andThen], rfl, rfl, [], by simp, by simp⟩
    · exact ⟨{ s with
          buf := { len := 0, base := .NULL }
          stream := some { st with reading := true }
          trace := s.trace ++ [.alloc READ_BUFFER_SIZE] ++ [.uv_read_stop, .uv_stop] },
        by simp [he, Res.andThen], rfl, rfl, [.uv_read_stop, .uv_stop], by simp,
        by simp [no_data]⟩
  obtain ⟨s1, h1, hst1, hbuf1, e1, htr1, he1⟩ := hb
  have hstuck : Stuck s1 := by
    refine ⟨?_, hbuf1⟩
    intro st1 h
    rw [hst1] at h
    simp at h
    subst h
    rfl
  have hrun := run_stuck evs s1 hstuck (hf3 s1 h1)
  have hall : run L s (.alloc :: .read cnt :: evs) = run L s1 evs := by
    simp [run, ha, h1, Res.andThen]
  refine ⟨⟨s1, by simp [run, ha, h1, Res.andThen], hst1⟩, ?_, ?_⟩
  · obtain ⟨ext, h2, h3⟩ := hrun.1
    refine ⟨e1 ++ ext, ?_, ?_⟩
    · rw [hall, h2, htr1]
      simp
    · intro a ha2
      rcases List.mem_append.mp ha2 with h | h
      · exact he1 a h
      · exact h3 a h
  · intro s2 st2 h2 hst2
    rw [hall] at h2
    exact (hrun.2 s2 h2).1 st2 hst2

/-- Instance of C10: an error on the first read, then `read_stop`,
`read_start` and a further read attempt. -/
theorem failed_read_sticks_witness :
    (∃ s1, run sample_lua sample_stdio [.alloc, .read (-4095)] = .ok s1
        ∧ s1.stream = some { type := .StreamTypeStdio, refcount := 3, reading := true
                             active := false, closed := false, exited := false })
    ∧ (∃ ext, (run sample_lua sample_stdio
            [.alloc, .read (-4095), .read_stop [], .read_start [.function], .alloc,
             .read UV_ENOBUFS]).state.trace
          = sample_stdio.trace ++ .alloc READ_BUFFER_SIZE :: ext
        ∧ ∀ a ∈ ext, no_data a = true)
    ∧ (∀ s2 st2, run sample_lua sample_stdio
            [.alloc, .read (-4095), .read_stop [], .read_start [.function], .alloc,
             .read UV_ENOBUFS] = .ok s2 →
        s2.stream = some st2 → st2.reading = true) :=
  failed_read_sticks sample_stdio
    { type := .StreamTypeStdio, refcount := 3, reading := false
      active := false, closed := false, exited := false }
    (-4095) [.read_stop [], .read_start [.function], .alloc, .read UV_ENOBUFS]
    (by decide) (by decide) (by decide) (by decide)

/-! ## C8: one read buffer, chunks of 1 to 65535 bytes -/

theorem run_closing_alive (n : Nat) : ∀ (s : State) (st : UVStream),
    s.stream = some st → s.closing.length < st.refcount →
    run_closing n s = .ok
      { s with
        stream := some { st with refcount := st.refcount - min n s.closing.length }
        closing := s.closing.drop n } := by
  induction n with
  | zero =>
    intro s st hs _
    cases s
    simp at hs
    simp [run_closing, hs]
  | succ n ih =>
    intro s st hs hlt
    unfold run_closing
    cases hcl : s.closing with
    | nil =>
      cases s
      simp at hs hcl
      simp [hs, hcl]
    | cons h rest =>
      rw [hcl] at hlt
      simp only [List.length_cons] at hlt
      have h0 : st.refcount ≠ 0 := by omega
      have h1 : st.refcount - 1 ≠ 0 := by omega
      have hdec : stream_close_cb { s with closing := rest } = .ok
          { s with closing := rest, stream := some { st with refcount := st.refcount - 1 } } := by
        simp [stream_close_cb, stream_decref, hs, h0, h1]
      simp only [hdec, Res.andThen]
      rw [ih _ { st with refcount := st.refcount - 1 } rfl (by simp; omega)]
      simp only [List.drop_succ_cons, List.length_cons]
      congr 3
      simp only [UVStream.mk.injEq, true_and, and_true]
      omega

theorem count_free_reap (n : Nat) : (reap_actions n).count .free_stream = 0 := by
  induction n with
  | zero => simp [reap_actions]
  | succ n ih => simp [reap_actions, ih]

theorem count_sink_reap (n : Nat) : (reap_actions n).count (.uv_close .sink) = 0 := by
  induction n with
  | zero => simp [reap_actions]
  | succ n ih => simp [reap_actions, ih]

theorem count_free_close_handles (t : StreamType) :
    ((close_handles t).map Action.uv_close).count .free_stream = 0 := by
  cases t <;> simp [close_handles]

theorem count_sink_close_handles (t : StreamType) :
    ((close_handles t).map Action.uv_close).count (.uv_close .sink) = 1 := by
  cases t <;> simp [close_handles]

theorem stream_close_tail_alive (s : State) (st : UVStream) (drain polls : Nat)
    (hs : s.stream = some st) (hcl : s.closing = [])
    (hrc : (close_handles st.type).length < st.refcount) :
    ∃ ext, stream_close_tail s drain polls = .ok
        { s with
          stream := some
            { st with refcount := st.refcount - min drain (close_handles st.type).length }
          closing := (close_handles st.type).drop drain
          trace := s.trace ++ ext }
      ∧ ext.count .free_stream = 0 ∧ ext.count (.uv_close .sink) = 1 := by
  unfold stream_close_tail
  simp only [hs, hcl, List.nil_append]
  rw [run_closing_alive drain _ { st with refcount := st.refcount + 1 } rfl (by simp; omega)]
  simp only [Res.andThen]
  have hmin : min drain (close_handles st.type).length ≤ (close_handles st.type).length :=
    Nat.min_le_right _ _
  have hne : ¬ st.refcount + 1 - min drain (close_handles st.type).length = 1 := by omega
  simp only [hne, if_false]
  have h0 : st.refcount + 1 - min drain (close_handles st.type).length ≠ 0 := by omega
  have h1 : st.refcount + 1 - min drain (close_handles st.type).length - 1 ≠ 0 := by omega
  have heq : st.refcount + 1 - min drain (close_handles st.type).length - 1
      = st.refcount - min drain (close_handles st.type).length := by omega
  have h2 : ¬ st.refcount - min drain (close_handles st.type).length = 0 := by omega
  simp only [stream_decref, h0, h1, if_false, heq]
  by_cases hch : st.type = .StreamTypeChild ∧ st.exited = false
  · refine ⟨(close_handles st.type).map Action.uv_close ++ [.uv_run .UV_RUN_NOWAIT]
        ++ reap_actions polls, ?_, ?_, ?_⟩
    · have h3 := h2
      rw [hch.1] at h3
      simp [hch, h3, Res.andThen]
    · simp [List.count_append, count_free_reap, count_free_close_handles]
    · simp [List.count_append, count_sink_reap, count_sink_close_handles]
  · refine ⟨(close_handles st.type).map Action.uv_close ++ [.uv_run .UV_RUN_NOWAIT],
      ?_, ?_, ?_⟩
    · simp [hch, h2, Res.andThen]
    · simp [List.count_append, count_free_close_handles]
    · simp [List.count_append, count_sink_close_handles]

theorem stream_close_head_eq (s : State) (st : UVStream) :
    ∃ pre, stream_close_head s st
        = { s with
            stream := some { st with closed := true, active := false }
            trace := s.trace ++ pre }
      ∧ pre.count .free_stream = 0
      ∧ pre.count (.uv_close .sink) = 0 := by
  unfold stream_close_head
  by_cases ha : st.active = true
  · exact ⟨[.uv_read_stop], by simp [ha], by simp, by simp⟩
  · have ha2 : st.active = false := by simpa using ha
    refine ⟨[], ?_, by simp, by simp⟩
    simp only [ha2, List.append_nil]
    simp [← ha2]

theorem luaL_checkint_of_isnumber {stack : List LuaValue} {i : Nat}
    (h : lua_isnumber L stack i = true) : ∃ n, luaL_checkint L stack i = some n := by
  unfold lua_isnumber at h
  unfold luaL_checkint
  split at h
  · rename_i n hn
    exact ⟨L.number2int n, by simp [hn]⟩
  · rename_i str hstr
    obtain ⟨n, hn⟩ := Option.isSome_iff_exists.mp h
    exact ⟨L.number2int n, by simp [hstr, hn]⟩
  · simp at h

theorem stream_close_alive (s : State) (st : UVStream) (stack : List LuaValue)
    (drain polls : Nat) (hs : s.stream = some st) (hck : checkstream stack = true)
    (hc : st.closed = false) (hcl : s.closing = [])
    (hrc : (close_handles st.type).length < st.refcount) :
    ∃ ext, stream_close L s stack drain polls = .ok
        { s with
          stream := some
            { st with
              closed := true, active := false
              refcount := st.refcount - min drain (close_handles st.type).length }
          closing := (close_handles st.type).drop drain
          trace := s.trace ++ ext }
      ∧ ext.count .free_stream = 0 ∧ ext.count (.uv_close .sink) = 1 := by
  obtain ⟨pre, hpre, hcount, hsink⟩ := stream_close_head_eq s st
  unfold stream_close
  rw [if_neg (by simp [hck])]
  simp only [hs]
  rw [if_neg (by simp [hc])]
  simp only [hpre]
  have tail : ∀ more : List Action, more.count .free_stream = 0 →
      more.count (.uv_close .sink) = 0 →
      ∃ ext, stream_close_tail
          { s with
            stream := some { st with closed := true, active := false }
            trace := s.trace ++ pre ++ more } drain polls = .ok
          { s with
            stream := some
              { st with
                closed := true, active := false
                refcount := st.refcount - min drain (close_handles st.type).length }
            closing := (close_handles st.type).drop drain
            trace := s.trace ++ ext }
        ∧ ext.count .free_stream = 0 ∧ ext.count (.uv_close .sink) = 1 := by
    intro more hmore hmore2
    obtain ⟨ext, h1, h2, h3⟩ := stream_close_tail_alive
      { s with
        stream := some { st with closed := true, active := false }
        trace := s.trace ++ pre ++ more }
      { st with closed := true, active := false } drain polls rfl hcl hrc
    refine ⟨pre ++ more ++ ext, ?_, ?_, ?_⟩
    · rw [h1]
      simp [List.append_assoc]
    · simp [List.count_append, hcount, hmore, h2]
    · simp [List.count_append, hsink, hmore2, h3]
  by_cases hk : st.type = .StreamTypeChild ∧ lua_isnone stack 2 = false
      ∧ lua_isnumber L stack 2 = true ∧ st.exited = false
  · obtain ⟨n, hn⟩ := luaL_checkint_of_isnumber hk.2.2.1
    rw [if_pos hk]
    simp only [hn]
    exact tail [.kill (if n ≠ 0 then .SIGKILL else .SIGTERM)] (by simp) (by simp)
  · rw [if_neg hk]
    have := tail [] (by simp) (by simp)
    simpa using this

theorem stream_decref_ledger (l : UVLoop) (s : State) (st : UVStream)
    (hs : s.stream = some st) (hrc : 1 ≤ st.refcount)
    (hloop : s.loop = some { l with refcount := l.refcount + 1 }) (hl : 1 ≤ l.refcount) :
    (st.refcount = 1 → stream_decref s = .ok
        { s with loop := some l, stream := none, trace := s.trace ++ [.free_stream] })
    ∧ (st.refcount ≠ 1 → stream_decref s = .ok
        { s with stream := some { st with refcount := st.refcount - 1 } }) := by
  have h0 : st.refcount ≠ 0 := by omega
  constructor
  · intro h1
    have hl0 : l.refcount ≠ 0 := by omega
    simp [stream_decref, hs, h1, loop_decref, hloop, hl0, Res.andThen]
  · intro h1
    have h2 : st.refcount - 1 ≠ 0 := by omega
    simp [stream_decref, hs, h0, h2]

theorem decref_lifecycle (l : UVLoop) (tr0 ext : List Action) (rel : Bool) (s : State)
    (st : UVStream) (hl : 1 ≤ l.refcount) (hs : s.stream = some st)
    (hclosed : st.closed = true) (htr : s.trace = tr0 ++ ext)
    (hcnt : ext.count .free_stream = 0) (hsink : ext.count (.uv_close .sink) = 1)
    (hloop : s.loop = some { l with refcount := l.refcount + 1 })
    (hlen : s.closing.length ≤ (close_handles st.type).length)
    (hrc : st.refcount = (if rel then 0 else 1) + s.closing.length + 1) :
    ∃ s1, stream_decref s = .ok s1 ∧ Lifecycle l tr0 rel s1 := by
  have hled := stream_decref_ledger l s st hs (by omega) hloop hl
  by_cases h1 : st.refcount = 1
  · refine ⟨_, hled.1 h1, ext ++ [.free_stream], by simp [htr], ?_⟩
    have hrel : rel = true := by
      cases rel
      · simp at hrc; omega
      · rfl
    have hnil : s.closing = [] := by
      apply List.eq_nil_of_length_eq_zero
      rw [hrel] at hrc
      simp at hrc
      omega
    simp [hrel, hnil, List.count_append, hcnt, hsink]
  · refine ⟨_, hled.2 h1, ext, by simp [htr], ?_⟩
    simp only [hclosed, if_true]
    exact ⟨by omega, by omega, by simp, hlen, hloop, hcnt, hsink⟩

/-- Callbacks and calls other than `close`, the release and a close
completion leave the refcount, the type, the closed flag, the loop and the
pending closes as they are, and neither free the stream nor close a
handle. -/
theorem step_other {s : State} {st : UVStream} {e : Event} (hs : s.stream = some st)
    (hclose : e.is_close = false) (hdone : e.is_done = false)
    (hwrite : e.well_typed L = true) :
    ∃ s1 st1 ext, step L s e = .ok s1 ∧ s1.stream = some st1
      ∧ st1.type = st.type ∧ st1.refcount = st.refcount ∧ st1.closed = st.closed
      ∧ s1.loop = s.loop ∧ s1.closing = s.closing ∧ s1.trace = s.trace ++ ext
      ∧ ext.count .free_stream = 0 ∧ ext.count (.uv_close .sink) = 0 := by
  cases e with
  | alloc =>
    by_cases hr : st.reading = true
    · exact ⟨{ s with buf := { len := 0, base := .NULL }, trace := s.trace ++ [.alloc 0] },
        st, [.alloc 0], by simp [step, alloc_cb, hs, hr], hs, rfl, rfl, rfl, rfl, rfl, rfl,
        by simp, by simp⟩
    · have hr2 : st.reading = false := by simpa using hr
      exact ⟨{ s with
          buf := { len := READ_BUFFER_SIZE, base := .read_buffer }
          stream := some { st with reading := true }
          trace := s.trace ++ [.alloc READ_BUFFER_SIZE] },
        { st with reading := true }, [.alloc READ_BUFFER_SIZE],
        by simp [step, alloc_cb, hs, hr2], rfl, rfl, rfl, rfl, rfl, rfl, rfl,
        by simp, by simp⟩
  | read cnt =>
    by_cases hc : cnt ≤ 0
    · by_cases hen : cnt = UV_ENOBUFS
      · refine ⟨{ s with buf := { len := 0, base := .NULL } }, st, [], ?_, hs, rfl, rfl, rfl,
          rfl, rfl, by simp, by simp, by simp⟩
        simp only [step, read_cb, hs, hc, if_true]
        simp [hen, Res.andThen]
        exact hs
      · refine ⟨{ s with
            buf := { len := 0, base := .NULL }
            trace := s.trace ++ [.uv_read_stop, .uv_stop] }, st, [.uv_read_stop, .uv_stop],
          ?_, hs, rfl, rfl, rfl, rfl, rfl, rfl, by simp, by simp⟩
        simp only [step, read_cb, hs, hc, if_true]
        simp [hen, Res.andThen]
    · exact ⟨{ s with
          buf := { len := 0, base := .NULL }
          stream := some { st with reading := false }
          trace := s.trace ++ [.lua_call cnt.toNat] },
        { st with reading := false }, [.lua_call cnt.toNat],
        by simp [step, read_cb, hs, hc, Res.andThen], rfl, rfl, rfl, rfl, rfl, rfl, rfl,
        by simp, by simp⟩
  | exit =>
    exact ⟨{ s with stream := some { st with exited := true } }, { st with exited := true },
      [], by simp [step, exit_cb, hs], rfl, rfl, rfl, rfl, rfl, rfl, by simp, by simp,
      by simp⟩
  | close_done => simp [Event.is_done] at hdone
  | read_start args =>
    exact ⟨{ s with
        stream := some { st with active := true }
        trace := s.trace ++ [.luaL_ref, .uv_read_start] },
      { st with active := true }, [.luaL_ref, .uv_read_start],
      by simp [step, stream_read_start, checkstream_stream_ud, hs], rfl, rfl, rfl, rfl, rfl,
      rfl, rfl, by simp, by simp⟩
  | read_stop args =>
    exact ⟨{ s with
        stream := some { st with active := false }
        trace := s.trace ++ [.uv_read_stop, .luaL_unref] },
      { st with active := false }, [.uv_read_stop, .luaL_unref],
      by simp [step, stream_read_stop, checkstream_stream_ud, hs], rfl, rfl, rfl, rfl, rfl,
      rfl, rfl, by simp, by simp⟩
  | write args =>
    simp only [Event.well_typed] at hwrite
    obtain ⟨len, hlen⟩ := Option.isSome_iff_exists.mp hwrite
    exact ⟨{ s with trace := s.trace ++ [.uv_write len] }, st, [.uv_write len],
      by simp [step, stream_write, checkstream_stream_ud, hs, hlen], hs, rfl, rfl, rfl, rfl,
      rfl, rfl, by simp, by simp⟩
  | close args drain polls => simp [Event.is_close] at hclose
  | delete drain polls => simp [Event.is_close] at hclose

theorem step_lifecycle {l : UVLoop} {tr0 : List Action} {rel : Bool} {s : State} {e : Event}
    (hl : 1 ≤ l.refcount) (hinv : Lifecycle l tr0 rel s)
    (hok : (if rel then e.is_done else e.well_typed L) = true) :
    ∃ s1, step L s e = .ok s1 ∧ Lifecycle l tr0 (rel || e.is_delete) s1 := by
  obtain ⟨ext, htr, hm⟩ := hinv
  cases hst : s.stream with
  | none =>
    rw [hst] at hm
    obtain ⟨hrel, hcl, hloop, hcnt, hsink⟩ := hm
    subst hrel
    cases e with
    | close_done =>
      refine ⟨s, by simp [step, run_closing, hcl], ext, htr, ?_⟩
      rw [hst]
      exact ⟨rfl, hcl, hloop, hcnt, hsink⟩
    | _ => simp [Event.is_done] at hok
  | some st =>
    rw [hst] at hm
    obtain ⟨hrc1, hrc, hnc, hlen, hloop, hcnt, hsink⟩ := hm
    -- events that do not touch the ledger
    have other : e.is_close = false → e.is_done = false →
        ∃ s1, step L s e = .ok s1 ∧ Lifecycle l tr0 (rel || e.is_delete) s1 := by
      intro hclose hdone
      have hrel : rel = false := by
        cases rel
        · rfl
        · simp [hdone] at hok
      subst hrel
      have hnd : e.is_delete = false := by
        cases e <;> simp [Event.is_close] at hclose <;> rfl
      obtain ⟨s1, st1, ext1, h1, h2, h3, h4, h5, h6, h7, h8, h9, h10⟩ :=
        step_other (L := L) hst hclose hdone (by simpa using hok)
      refine ⟨s1, h1, ext ++ ext1, by rw [h8, htr, List.append_assoc], ?_⟩
      rw [h2]
      simp only [hnd, Bool.or_false, h3, h4, h5, h6, h7]
      refine ⟨hrc1, hrc, ?_, hlen, hloop, by simp [List.count_append, hcnt, h9],
        by simp [List.count_append, hsink, h10]⟩
      intro h
      simpa using hnc h
    cases e with
    | close_done =>
      simp only [Event.is_delete, Bool.or_false]
      cases hcl : s.closing with
      | nil =>
        refine ⟨s, by simp [step, run_closing, hcl], ext, htr, ?_⟩
        rw [hst]
        exact ⟨hrc1, hrc, hnc, hlen, hloop, hcnt, hsink⟩
      | cons h rest =>
        have hclosed : st.closed = true := by
          by_contra hcon
          have := (hnc (by simpa using hcon)).1
          rw [hcl] at this
          simp at this
        obtain ⟨s1, h1, h2⟩ := decref_lifecycle l tr0 ext rel { s with closing := rest } st
          hl hst hclosed htr hcnt (by simpa [hclosed] using hsink) hloop
          (by
            rw [hcl] at hlen
            simp at hlen ⊢
            omega)
          (by
            rw [hrc]
            simp [hclosed, hcl]
            omega)
        exact ⟨s1, by simp [step, run_closing, hcl, stream_close_cb, h1, Res.andThen], h2⟩
    | close args drain polls =>
      have hrel : rel = false := by
        cases rel
        · rfl
        · simp [Event.is_done] at hok
      subst hrel
      simp only [Event.is_delete, Bool.or_false]
      by_cases hclosed : st.closed = true
      · refine ⟨s, by simp [step, stream_close, checkstream_stream_ud, hst, hclosed],
          ext, htr, ?_⟩
        rw [hst]
        exact ⟨hrc1, hrc, hnc, hlen, hloop, hcnt, hsink⟩
      · have hc : st.closed = false := by simpa using hclosed
        simp only [hc] at hrc hsink
        obtain ⟨ext2, h1, h2, h3⟩ := stream_close_alive (L := L) s st (stream_ud :: args)
          drain polls hst (checkstream_stream_ud args) hc (hnc hc).1 (by simp at hrc; omega)
        refine ⟨_, h1, ext ++ ext2, by simp [htr], ?_⟩
        have hmin : min drain (close_handles st.type).length ≤ (close_handles st.type).length :=
          Nat.min_le_right _ _
        simp only [if_true, List.length_drop]
        refine ⟨by simp at hrc; omega, by simp at hrc ⊢; omega, by simp, by omega, hloop,
          ?_, ?_⟩
        · simp [List.count_append, hcnt, h2]
        · simp at hsink
          simp [List.count_append, hsink, h3]
    | delete drain polls =>
      have hrel : rel = false := by
        cases rel
        · rfl
        · simp [Event.is_done] at hok
      subst hrel
      simp only [Event.is_delete, Bool.or_true]
      have hck : checkstream [stream_ud] = true := checkstream_stream_ud []
      by_cases hclosed : st.closed = true
      · have hclose : stream_close L s [stream_ud] drain polls = .ok s := by
          simp [stream_close, hck, hst, hclosed]
        obtain ⟨s1, h1, h2⟩ := decref_lifecycle l tr0 ext true s st hl hst hclosed htr hcnt
          (by simpa [hclosed] using hsink) hloop hlen (by
            rw [hrc]
            simp [hclosed]
            omega)
        exact ⟨s1, by simp [step, stream_delete, hck, hclose, Res.andThen, h1], h2⟩
      · have hc : st.closed = false := by simpa using hclosed
        simp only [hc] at hrc hsink
        obtain ⟨ext2, h1, h2, h3⟩ := stream_close_alive (L := L) s st [stream_ud] drain polls
          hst hck hc (hnc hc).1 (by simp at hrc; omega)
        have hmin : min drain (close_handles st.type).length ≤ (close_handles st.type).length :=
          Nat.min_le_right _ _
        obtain ⟨s1, h4, h5⟩ := decref_lifecycle l tr0 (ext ++ ext2) true
          { s with
            stream := some
              { st with
                closed := true, active := false
                refcount := st.refcount - min drain (close_handles st.type).length }
            closing := (close_handles st.type).drop drain
            trace := s.trace ++ ext2 }
          { st with
            closed := true, active := false
            refcount := st.refcount - min drain (close_handles st.type).length }
          hl rfl rfl (by simp [htr]) (by simp [List.count_append, hcnt, h2])
          (by
            simp at hsink
            simp [List.count_append, hsink, h3])
          hloop (by simp only [List.length_drop]; omega) (by
            simp only [if_true, List.length_drop]
            simp at hrc
            omega)
        exact ⟨s1, by simp [step, stream_delete, hck, h1, Res.andThen, h4], h5⟩
    | alloc => exact other rfl rfl
    | read cnt => exact other rfl rfl
    | exit => exact other rfl rfl
    | read_start args => exact other rfl rfl
    | read_stop args => exact other rfl rfl
    | write args => exact other rfl rfl

theorem run_lifecycle {l : UVLoop} {tr0 : List Action} (hl : 1 ≤ l.refcount)
    (evs : List Event) : ∀ (rel : Bool) (s : State), Lifecycle l tr0 rel s →
    host_order L rel evs = true →
    ∃ s1, run L s evs = .ok s1 ∧ Lifecycle l tr0 (rel || evs.any Event.is_delete) s1 := by
  induction evs with
  | nil =>
    intro rel s hinv _
    exact ⟨s, rfl, by simpa using hinv⟩
  | cons e es ih =>
    intro rel s hinv hord
    simp only [host_order, Bool.and_eq_true] at hord
    obtain ⟨s1, h1, h2⟩ := step_lifecycle (L := L) hl hinv hord.1
    obtain ⟨s2, h3, h4⟩ := ih _ s1 h2 hord.2
    refine ⟨s2, by simp [run, h1, Res.andThen, h3], ?_⟩
    simpa [List.any_cons, Bool.or_assoc] using h4

theorem close_done_pops {s s1 : State} (h : step L s .close_done = .ok s1) :
    s1.closing.length ≤ s.closing.length - 1 := by
  simp only [step] at h
  unfold run_closing at h
  split at h
  · rename_i hcl
    simp at h
    subst h
    simp [hcl]
  · rename_i hd rest hcl
    obtain ⟨s2, h2, h3⟩ := andThen_eq_ok h
    simp [run_closing] at h3
    subst h3
    have := (stream_decref_frame h2).2.1
    simp [stream_close_cb] at this
    simp [this, hcl]

/-- After the release, as many loop passes as there are pending close
completions free the stream. -/
theorem release_completes {l : UVLoop} {tr0 : List Action} (hl : 1 ≤ l.refcount)
    (k : Nat) : ∀ s : State, Lifecycle l tr0 true s → s.closing.length ≤ k →
    ∃ s2, run L s (List.replicate k .close_done) = .ok s2 ∧ s2.stream = none
      ∧ Lifecycle l tr0 true s2 := by
  induction k with
  | zero =>
    intro s hinv hlen
    refine ⟨s, rfl, ?_, hinv⟩
    obtain ⟨ext, _, hm⟩ := hinv
    cases hst : s.stream with
    | none => rfl
    | some st =>
      rw [hst] at hm
      obtain ⟨hrc1, hrc, hnc, _⟩ := hm
      exfalso
      cases hc : st.closed with
      | false => simpa using (hnc hc).2
      | true =>
        simp [hc] at hrc
        omega
  | succ k ih =>
    intro s hinv hlen
    obtain ⟨s1, h1, h2⟩ := step_lifecycle (L := L) (e := .close_done) hl hinv rfl
    have hpop := close_done_pops h1
    obtain ⟨s2, h3, h4, h5⟩ := ih s1 (by simpa [Event.is_delete] using h2) (by omega)
    exact ⟨s2, by simp [List.replicate_succ, run, h1, Res.andThen, h3], h4, h5⟩

theorem run_append (a : List Event) : ∀ (s : State) (b : List Event),
    run L s (a ++ b) = (run L s a).andThen fun s1 => run L s1 b := by
  induction a with
  | nil => intro s b; rfl
  | cons e es ih =>
    intro s b
    simp only [List.cons_append, run]
    cases step L s e with
    | ok s1 => simpa [Res.andThen] using ih s1 b
    | error s1 x => rfl
    | fault s1 x => rfl

theorem andThen_error_ne_ok {r : Res} {e : LuaError} {s : State} :
    r.andThen (fun s2 => .error s2 e) ≠ .ok s := by
  cases r <;> simp [Res.andThen]

theorem loop_stdio_ok {s0 s1 : State} {l : UVLoop} {stack : List LuaValue}
    {open_in open_out : Int} {drain polls : Nat} (hloop : s0.loop = some l)
    (h : loop_stdio L s0 stack open_in open_out drain polls = .ok s1) :
    s1 = { s0 with
           loop := some { l with refcount := l.refcount + 1 }
           stream := some { type := .StreamTypeStdio, refcount := 3, reading := false
                            active := false, closed := false, exited := false }
           trace := s0.trace ++ [.uv_pipe_open 0, .uv_pipe_open 1] } := by
  unfold loop_stdio at h
  split at h
  · simp at h
  · simp only [hloop] at h
    split at h
    · exact absurd h andThen_error_ne_ok
    · split at h
      · exact absurd h andThen_error_ne_ok
      · simp at h
        rw [← h]

theorem loop_spawn_ok {s0 s1 : State} {l : UVLoop} {stack : List LuaValue}
    {status : Int} {drain polls : Nat} (hloop : s0.loop = some l)
    (h : loop_spawn L s0 stack status drain polls = .ok s1) :
    ∃ argv, s1 = { s0 with
           loop := some { l with refcount := l.refcount + 1 }
           stream := some { type := .StreamTypeChild, refcount := 4, reading := false
                            active := false, closed := false, exited := false }
           trace := s0.trace ++ [.uv_spawn argv] } := by
  unfold loop_spawn at h
  split at h
  · simp at h
  · split at h
    · split at h
      · simp at h
      · split at h
        · simp at h
        · split at h
          · simp at h
          · rename_i argv _
            simp only [hloop] at h
            split at h
            · exact absurd h andThen_error_ne_ok
            · simp at h
              exact ⟨argv, by rw [← h]⟩
    · simp at h

/-- C9 as stated fails for the order "host release, then explicit close": on a
stdio stream whose two close callbacks run in the drain of `stream_delete`,
the release frees the stream, and a later `close` reads the freed stream. -/
theorem close_after_release_reads_freed_stream :
    (run sample_lua sample_stdio [.delete 2 0]).state.stream = none
      ∧ (run sample_lua sample_stdio [.delete 2 0]).failure = none
      ∧ (run sample_lua sample_stdio [.delete 2 0, .close [] 0 0]).failure
          = some .use_after_free := by
  decide

/-- C9 (amended): a stream returned by a successful `loop_stdio` has refcount 3
and two handles to close, one returned by a successful `loop_spawn` has
refcount 4 and three. Take any sequence `evs` of events on it in which the
host release (`stream_delete`) is the host's last call: before it reads are
armed, stopped and delivered, data is written, the child exits, `close` is
called or not, close completions run in later passes (and in the drains, for
every split); after it only close completions come. Then
* every call returns: no assertion fails and no freed stream is read;
* the ledger `Lifecycle` holds at the end: while allocated the stream has
  refcount >= 1, equal to the host's reference plus the completions to come;
  it is freed only once the release and all completions have occurred, and
  then exactly once, the loop's refcount going back down by exactly 1;
* and the refcount does reach zero: if `evs` contains the release, three more
  loop passes (one per completion that may be pending) leave the stream freed,
  once, with no completion pending and the loop's refcount back to its value
  before the stream was created. -/
theorem stream_refcount_lifecycle (s0 s1 : State) (l : UVLoop) (evs : List Event)
    (hloop : s0.loop = some l) (hl : 1 ≤ l.refcount) (hcl : s0.closing = [])
    (hnew : (∃ stack open_in open_out drain polls,
              loop_stdio L s0 stack open_in open_out drain polls = .ok s1)
          ∨ (∃ stack status drain polls, loop_spawn L s0 stack status drain polls = .ok s1))
    (hord : host_order L false evs = true) :
    (∃ st, s1.stream = some st ∧ st.closed = false
        ∧ ((st.type = .StreamTypeStdio ∧ st.refcount = 3 ∧ (close_handles st.type).length = 2)
          ∨ (st.type = .StreamTypeChild ∧ st.refcount = 4
              ∧ (close_handles st.type).length = 3)))
    ∧ (∃ s2, run L s1 evs = .ok s2 ∧ Lifecycle l s1.trace (evs.any Event.is_delete) s2)
    ∧ (evs.any Event.is_delete = true →
        ∃ s3 ext, run L s1 (evs ++ List.replicate 3 .close_done) = .ok s3
          ∧ s3.stream = none ∧ s3.closing = [] ∧ s3.loop = some l
          ∧ s3.trace = s1.trace ++ ext ∧ ext.count .free_stream = 1
          ∧ ext.count (.uv_close .sink) = 1) := by
  have hinit : (∃ st, s1.stream = some st ∧ st.closed = false
        ∧ ((st.type = .StreamTypeStdio ∧ st.refcount = 3 ∧ (close_handles st.type).length = 2)
          ∨ (st.type = .StreamTypeChild ∧ st.refcount = 4
              ∧ (close_handles st.type).length = 3)))
      ∧ Lifecycle l s1.trace false s1 := by
    rcases hnew with ⟨stack, oi, oo, d, p, h⟩ | ⟨stack, status, d, p, h⟩
    · have := loop_stdio_ok hloop h
      subst this
      refine ⟨⟨_, rfl, rfl, Or.inl ⟨rfl, rfl, rfl⟩⟩, [], by simp, ?_⟩
      simp [close_handles, hcl]
    · obtain ⟨argv, this⟩ := loop_spawn_ok hloop h
      subst this
      refine ⟨⟨_, rfl, rfl, Or.inr ⟨rfl, rfl, rfl⟩⟩, [], by simp, ?_⟩
      simp [close_handles, hcl]
  obtain ⟨s2, h1, h2⟩ := run_lifecycle (L := L) hl evs false s1 hinit.2 hord
  refine ⟨hinit.1, ⟨s2, h1, by simpa using h2⟩, ?_⟩
  intro hdel
  have h2r : Lifecycle l s1.trace true s2 := by simpa [hdel] using h2
  have hpend : s2.closing.length ≤ 3 := by
    obtain ⟨ext, _, hm⟩ := h2r
    cases hst : s2.stream with
    | none =>
      rw [hst] at hm
      simp [hm.2.1]
    | some st =>
      rw [hst] at hm
      have hlen := hm.2.2.2.1
      have : (close_handles st.type).length ≤ 3 := by
        cases st.type <;> simp [close_handles]
      omega
  obtain ⟨s3, h3, h4, h5⟩ := release_completes (L := L) hl 3 s2 h2r hpend
  obtain ⟨ext, h6, hm⟩ := h5
  rw [h4] at hm
  exact ⟨s3, ext, by rw [run_append, h1]; simpa [Res.andThen] using h3, h4, hm.2.1, hm.2.2.1,
    h6, hm.2.2.2.1, hm.2.2.2.2⟩

/-- Instance of C9 (amended): on a child stream a read is armed and a chunk
delivered, data is written, the stream is closed with one completion in the
drain, a second completes later, the host releases the stream, the third
completes. -/
theorem stream_refcount_lifecycle_witness :
    (∃ st, sample_child.stream = some st ∧ st.closed = false
        ∧ ((st.type = .StreamTypeStdio ∧ st.refcount = 3 ∧ (close_handles st.type).length = 2)
          ∨ (st.type = .StreamTypeChild ∧ st.refcount = 4
              ∧ (close_handles st.type).length = 3)))
    ∧ (∃ s2, run sample_lua sample_child
          [.read_start [.function], .alloc, .read 6, .write [.string "ping"], .exit,
            .close [.number (.of_int 1)] 1 0, .close_done, .delete 0 0, .close_done]
          = .ok s2
        ∧ Lifecycle
            { running := false, refcount := 1, timeout := 0
              prepare_active := false, timer_active := false }
            sample_child.trace
            ([Event.read_start [.function], .alloc, .read 6, .write [.string "ping"], .exit,
              .close [.number (.of_int 1)] 1 0, .close_done, .delete 0 0, .close_done].any
              Event.is_delete)
            s2)
    ∧ (([Event.read_start [.function], .alloc, .read 6, .write [.string "ping"], .exit,
          .close [.number (.of_int 1)] 1 0, .close_done, .delete 0 0, .close_done].any
          Event.is_delete) = true →
        ∃ s3 ext, run sample_lua sample_child
            ([.read_start [.function], .alloc, .read 6, .write [.string "ping"], .exit,
              .close [.number (.of_int 1)] 1 0, .close_done, .delete 0 0, .close_done]
              ++ List.replicate 3 .close_done) = .ok s3
          ∧ s3.stream = none ∧ s3.closing = []
          ∧ s3.loop = some { running := false, refcount := 1, timeout := 0
                             prepare_active := false, timer_active := false }
          ∧ s3.trace = sample_child.trace ++ ext ∧ ext.count .free_stream = 1
          ∧ ext.count (.uv_close .sink) = 1) :=
  stream_refcount_lifecycle sample_loop sample_child
    { running := false, refcount := 1, timeout := 0
      prepare_active := false, timer_active := false }
    [.read_start [.function], .alloc, .read 6, .write [.string "ping"], .exit,
      .close [.number (.of_int 1)] 1 0, .close_done, .delete 0 0, .close_done]
    (by decide) (by decide) (by decide)
    (Or.inr ⟨[loop_ud, .table [.string "cat"]], 0, 0, 0, by decide⟩)
    (by decide)

/-! ## C7: the loop is torn down at the last release -/

theorem live_pos : ∀ (l : List (Option UVStream)) (i : Nat) (st : UVStream),
    l[i]? = some (some st) → 1 ≤ live l := by
  intro l
  induction l with
  | nil => intro i st h; simp at h
  | cons a r ih =>
    intro i st h
    cases a with
    | some x => simp [live]
    | none =>
      cases i with
      | zero => simp at h
      | succ j =>
        simp at h
        simpa [live] using ih j st h

theorem live_set_none : ∀ (l : List (Option UVStream)) (i : Nat) (st : UVStream),
    l[i]? = some (some st) → live (l.set i none) + 1 = live l := by
  intro l
  induction l with
  | nil => intro i st h; simp at h
  | cons a r ih =>
    intro i st h
    cases i with
    | zero =>
      simp at h
      subst h
      simp [live]
    | succ j =>
      simp at h
      cases a with
      | some x => simp [live, List.set]; have := ih j st h; omega
      | none => simpa [live, List.set] using ih j st h

theorem live_set_some : ∀ (l : List (Option UVStream)) (i : Nat) (st st2 : UVStream),
    l[i]? = some (some st) → live (l.set i (some st2)) = live l := by
  intro l
  induction l with
  | nil => intro i st st2 h; simp at h
  | cons a r ih =>
    intro i st st2 h
    cases i with
    | zero =>
      simp at h
      subst h
      simp [live]
    | succ j =>
      simp at h
      cases a with
      | some x => simpa [live, List.set] using ih j st st2 h
      | none => simpa [live, List.set] using ih j st st2 h

theorem live_zero : ∀ (l : List (Option UVStream)),
    (∀ (i : Nat) (st : UVStream), l[i]? ≠ some (some st)) → live l = 0 := by
  intro l
  induction l with
  | nil => intro _; rfl
  | cons a r ih =>
    intro h
    cases a with
    | some x => exact absurd (by simp) (h 0 x)
    | none =>
      simp only [live]
      exact ih fun i st hi => h (i + 1) st (by simpa using hi)

theorem live_append_some (l : List (Option UVStream)) (st : UVStream) :
    live (l ++ [some st]) = live l + 1 := by
  induction l with
  | nil => rfl
  | cons a r ih =>
    cases a with
    | some x => simp [live, ih]
    | none => simpa [live] using ih

theorem stream_refcount_pos (w : World) (i : Nat) (h : 1 ≤ stream_refcount w i) :
    ∃ st, w.streams[i]? = some (some st) ∧ st.refcount = stream_refcount w i := by
  unfold stream_refcount at h ⊢
  split at h
  · rename_i st hst
    exact ⟨st, hst, by simp⟩
  · omega

theorem ledger_loop_alive {w : World} {e : LoopEvent} {es : List LoopEvent}
    (h : LoopLedger w (e :: es)) :
    ∃ lp, w.loop = some lp ∧ lp.refcount = (e :: es).count .loop_delete + live w.streams
      ∧ 1 ≤ lp.refcount ∧ w.trace.count .loop_close = 0 ∧ w.trace.count .free_loop = 0 := by
  obtain ⟨hcnt, hpos, hdel, hloop⟩ := h
  cases hl : w.loop with
  | some lp =>
    rw [hl] at hloop
    exact ⟨lp, rfl, hloop⟩
  | none =>
    rw [hl] at hloop
    exfalso
    cases e with
    | loop_delete =>
      have := hloop.1
      simp at this
    | stream_decref i =>
      have h1 := hcnt i
      rw [List.count_cons_self] at h1
      obtain ⟨st, hst, _⟩ := stream_refcount_pos w i (by omega)
      have := live_pos _ _ _ hst
      have := hloop.1
      omega

theorem world_step_ledger {w : World} {e : LoopEvent} (es : List LoopEvent)
    (h : LoopLedger w (e :: es)) : ∃ w1, world_step w e = some w1 ∧ LoopLedger w1 es := by
  obtain ⟨lp, hl, hrc, hrc1, hcl, hfl⟩ := ledger_loop_alive h
  obtain ⟨hcnt, hpos, hdel, -⟩ := h
  have hck : checkloop [loop_ud] = true := by
    simp [checkloop, luaL_checkudata, lua_index, loop_ud]
  cases e with
  | loop_delete =>
    rw [List.count_cons_self] at hdel hrc
    have hd0 : es.count .loop_delete = 0 := by omega
    have hcnt2 : ∀ i, es.count (.stream_decref i) = stream_refcount w i := by
      intro i
      have := hcnt i
      rwa [List.count_cons_of_ne (by simp)] at this
    have h0 : lp.refcount ≠ 0 := by omega
    by_cases hlive : live w.streams = 0
    · have h1 : lp.refcount - 1 = 0 := by omega
      refine ⟨{ w with loop := none, trace := w.trace ++ [.loop_close, .free_loop] }, ?_, ?_⟩
      · simp [world_step, loop_delete, hck, loop_decref, World.view, hl, h0, h1]
      · refine ⟨hcnt2, hpos, by omega, ?_⟩
        simp [hd0, hlive, List.count_append, hcl, hfl]
    · have h1 : lp.refcount - 1 ≠ 0 := by omega
      refine ⟨{ w with loop := some { lp with refcount := lp.refcount - 1 } }, ?_, ?_⟩
      · simp [world_step, loop_delete, hck, loop_decref, World.view, hl, h0, h1]
      · refine ⟨hcnt2, hpos, by omega, ?_⟩
        simp only [hd0]
        exact ⟨by omega, by omega, hcl, hfl⟩
  | stream_decref i =>
    rw [List.count_cons_of_ne (by simp)] at hdel hrc
    have hi := hcnt i
    rw [List.count_cons_self] at hi
    obtain ⟨st, hst, hstrc⟩ := stream_refcount_pos w i (by omega)
    have hilt : i < w.streams.length := by
      by_contra hcon
      have : w.streams[i]? = none := List.getElem?_eq_none (by omega)
      rw [this] at hst
      simp at hst
    have hother : ∀ (j : Nat) (x : Option UVStream), j ≠ i →
        stream_refcount { loop := w.loop, streams := w.streams.set i x, trace := w.trace } j
          = es.count (.stream_decref j) := by
      intro j x hj
      have := hcnt j
      rw [List.count_cons_of_ne (by simpa using hj)] at this
      rw [this]
      simp [stream_refcount, List.getElem?_set_ne (Ne.symm hj)]
    have hposother : ∀ (x : Option UVStream) (j : Nat) (st2 : UVStream), j ≠ i →
        (w.streams.set i x)[j]? = some (some st2) → 1 ≤ st2.refcount := by
      intro x j st2 hj h2
      rw [List.getElem?_set_ne (Ne.symm hj)] at h2
      exact hpos j st2 h2
    have hlivepos := live_pos _ _ _ hst
    have h0 : st.refcount ≠ 0 := by omega
    by_cases hlast : st.refcount = 1
    · -- final release of stream i
      have hes0 : es.count (.stream_decref i) = 0 := by omega
      have hlv := live_set_none _ _ _ hst
      have hl0 : lp.refcount ≠ 0 := by omega
      by_cases hloop1 : lp.refcount = 1
      · refine ⟨{ loop := none, streams := w.streams.set i none
                  trace := w.trace ++ [.loop_close, .free_loop] ++ [.free_stream] }, ?_, ?_⟩
        · simp [world_step, hst, stream_decref, World.view, hlast, loop_decref, hl, hloop1,
            Res.andThen]
        · refine ⟨?_, ?_, hdel, ?_⟩
          · intro j
            by_cases hj : j = i
            · subst hj
              simp [stream_refcount, List.getElem?_set, hilt, hes0]
            · have := hother j none hj
              simpa [stream_refcount] using this.symm
          · intro j st2 h2
            by_cases hj : j = i
            · subst hj
              simp [List.getElem?_set, hilt] at h2
            · exact hposother none j st2 hj h2
          · simp only [List.count_append, hcl, hfl]
            refine ⟨by omega, by simp, by simp⟩
      · have hl1 : lp.refcount - 1 ≠ 0 := by omega
        refine ⟨{ loop := some { lp with refcount := lp.refcount - 1 }
                  streams := w.streams.set i none
                  trace := w.trace ++ [.free_stream] }, ?_, ?_⟩
        · simp [world_step, hst, stream_decref, World.view, hlast, loop_decref, hl, hl0, hl1,
            Res.andThen]
        · refine ⟨?_, ?_, hdel, ?_⟩
          · intro j
            by_cases hj : j = i
            · subst hj
              simp [stream_refcount, List.getElem?_set, hilt, hes0]
            · have := hother j none hj
              simpa [stream_refcount] using this.symm
          · intro j st2 h2
            by_cases hj : j = i
            · subst hj
              simp [List.getElem?_set, hilt] at h2
            · exact hposother none j st2 hj h2
          · simp only [List.count_append, hcl, hfl]
            refine ⟨by omega, by omega, by simp, by simp⟩
    · have h1 : st.refcount - 1 ≠ 0 := by omega
      have hlv := live_set_some _ _ _ { st with refcount := st.refcount - 1 } hst
      refine ⟨{ loop := w.loop
                streams := w.streams.set i (some { st with refcount := st.refcount - 1 })
                trace := w.trace }, ?_, ?_⟩
      · simp [world_step, hst, stream_decref, World.view, h0, h1]
      · refine ⟨?_, ?_, hdel, ?_⟩
        · intro j
          by_cases hj : j = i
          · subst hj
            simp [stream_refcount, List.getElem?_set, hilt]
            omega
          · have := hother j (some { st with refcount := st.refcount - 1 }) hj
            simpa [stream_refcount] using this.symm
        · intro j st2 h2
          by_cases hj : j = i
          · subst hj
            simp [List.getElem?_set, hilt] at h2
            subst h2
            simp
            omega
          · exact hposother _ j st2 hj h2
        · simp only [hl, hlv]
          exact ⟨hrc, hrc1, hcl, hfl⟩

theorem world_run_ledger (pre : List LoopEvent) : ∀ (w : World) (suf : List LoopEvent),
    LoopLedger w (pre ++ suf) → ∃ w1, world_run w pre = some w1 ∧ LoopLedger w1 suf := by
  induction pre with
  | nil => intro w suf h; exact ⟨w, rfl, h⟩
  | cons e es ih =>
    intro w suf h
    obtain ⟨w1, h1, h2⟩ := world_step_ledger (es ++ suf) h
    obtain ⟨w2, h3, h4⟩ := ih w1 suf h2
    exact ⟨w2, by simp [world_run, h1, h3], h4⟩

theorem ledger_done {w : World} (h : LoopLedger w []) :
    w.loop = none ∧ live w.streams = 0 ∧ w.trace.count .loop_close = 1
      ∧ w.trace.count .free_loop = 1 := by
  obtain ⟨hcnt, hpos, _, hloop⟩ := h
  have hlive : live w.streams = 0 := by
    apply live_zero
    intro i st hst
    have h1 := hpos i st hst
    have h2 := hcnt i
    simp [stream_refcount, hst] at h2
    omega
  cases hl : w.loop with
  | some lp =>
    rw [hl] at hloop
    simp [hlive] at hloop
    omega
  | none =>
    rw [hl] at hloop
    exact ⟨rfl, hlive, hloop.2⟩

theorem world_add_created {w w1 : World} {child : Bool} (hc : Created w)
    (h : world_add L w child = some w1) :
    Created w1 ∧ w1.streams.length = w.streams.length + 1 := by
  obtain ⟨⟨lp, hl, hrc⟩, hlive, hst, hcl, hfl⟩ := hc
  have hview : (w.view none).loop = some lp := hl
  unfold world_add at h
  split at h
  · rename_i s hs
    simp at h
    subst h
    have key : ∃ st tr, s.loop = some { lp with refcount := lp.refcount + 1 }
        ∧ s.stream = some st ∧ (st.refcount = 3 ∨ st.refcount = 4)
        ∧ s.trace = w.trace ++ tr ∧ tr.count .loop_close = 0 ∧ tr.count .free_loop = 0 := by
      cases child with
      | true =>
        simp only [if_true] at hs
        obtain ⟨argv, this⟩ := loop_spawn_ok hview hs
        subst this
        exact ⟨_, [.uv_spawn argv], rfl, rfl, Or.inr rfl, rfl, by simp, by simp⟩
      | false =>
        simp only [Bool.false_eq_true, if_false] at hs
        have := loop_stdio_ok hview hs
        subst this
        exact ⟨_, [.uv_pipe_open 0, .uv_pipe_open 1], rfl, rfl, Or.inl rfl, rfl, by simp,
          by simp⟩
    obtain ⟨st, tr, h1, h2, h3, h4, h5, h6⟩ := key
    refine ⟨⟨⟨_, h1, by simp [hrc]⟩, ?_, ?_, ?_, ?_⟩, by simp⟩
    · simp [h2, live_append_some, hlive]
    · intro i st2 hi
      by_cases hlt : i < w.streams.length
      · rw [List.getElem?_append_left hlt] at hi
        exact hst i st2 hi
      · rw [List.getElem?_append_right (by omega)] at hi
        have : i - w.streams.length = 0 := by
          by_contra hne
          have : ([s.stream] : List (Option UVStream))[i - w.streams.length]? = none :=
            List.getElem?_eq_none (by simp; omega)
          rw [this] at hi
          simp at hi
        rw [this, h2] at hi
        simp at hi
        subst hi
        exact h3
    · simp [h4, List.count_append, hcl, h5]
    · simp [h4, List.count_append, hfl, h6]
  · simp at h

theorem world_add_all_created (kinds : List Bool) : ∀ {w w1 : World}, Created w →
    world_add_all L w kinds = some w1 →
    Created w1 ∧ w1.streams.length = w.streams.length + kinds.length := by
  induction kinds with
  | nil =>
    intro w w1 hc h
    simp [world_add_all] at h
    subst h
    exact ⟨hc, by simp⟩
  | cons k ks ih =>
    intro w w1 hc h
    simp only [world_add_all] at h
    cases hk : world_add L w k with
    | none => simp [hk] at h
    | some w2 =>
      simp [hk] at h
      obtain ⟨hc2, hlen2⟩ := world_add_created hc hk
      obtain ⟨hc1, hlen1⟩ := ih hc2 h
      exact ⟨hc1, by simp [hlen1, hlen2]; omega⟩

theorem created_world_new : Created world_new := by
  refine ⟨⟨_, rfl, rfl⟩, rfl, ?_, rfl, rfl⟩
  intro i st h
  simp [world_new] at h

/-- C7: a loop is created by `loop_new` and `n` streams are created on it
(`kinds` tells which by `loop_stdio`, which by `loop_spawn`); its refcount is
then n + 1. Take any order `evs` of the host's `loop_delete` and of the
decrements of the streams (for each stream as many as its refcount, the last
one being its final release). Every call returns. Before the last event the
loop is allocated with refcount >= 1 and `loop_close` / `free` have not been
called; at the last event the refcount reaches zero and the loop is closed and
freed, once. With no stream this is the `loop_delete` itself. -/
theorem loop_teardown_at_last_release (kinds : List Bool) (w0 : World)
    (evs : List LoopEvent)
    (hw : world_add_all L world_new kinds = some w0)
    (hdel : evs.count .loop_delete = 1)
    (hin : ∀ e ∈ evs, e.within w0.streams.length = true)
    (hrel : ∀ i < w0.streams.length, evs.count (.stream_decref i) = stream_refcount w0 i) :
    (∃ lp, w0.loop = some lp ∧ lp.refcount = kinds.length + 1)
    ∧ (∀ pre suf, evs = pre ++ suf → suf ≠ [] →
        ∃ w lp, world_run w0 pre = some w ∧ w.loop = some lp ∧ 1 ≤ lp.refcount
          ∧ w.trace.count .loop_close = 0 ∧ w.trace.count .free_loop = 0)
    ∧ (∃ w, world_run w0 evs = some w ∧ w.loop = none ∧ live w.streams = 0
          ∧ w.trace.count .loop_close = 1 ∧ w.trace.count .free_loop = 1) := by
  obtain ⟨hc, hlen⟩ := world_add_all_created kinds created_world_new hw
  have hlen2 : w0.streams.length = kinds.length := by
    simpa [world_new] using hlen
  obtain ⟨⟨lp, hl, hrc⟩, hlive, hst, hcl, hfl⟩ := hc
  have hled : LoopLedger w0 evs := by
    refine ⟨?_, ?_, by omega, ?_⟩
    · intro i
      by_cases hi : i < w0.streams.length
      · exact hrel i hi
      · have h1 : evs.count (.stream_decref i) = 0 := by
          apply List.count_eq_zero.mpr
          intro hmem
          have := hin _ hmem
          simp [LoopEvent.within] at this
          exact hi this
        have h2 : w0.streams[i]? = none := List.getElem?_eq_none (by omega)
        simp [h1, stream_refcount, h2]
    · intro i st h
      rcases hst i st h with h3 | h4 <;> omega
    · rw [hl]
      exact ⟨by omega, by omega, hcl, hfl⟩
  refine ⟨⟨lp, hl, by omega⟩, ?_, ?_⟩
  · intro pre suf hsplit hne
    subst hsplit
    obtain ⟨w, h1, h2⟩ := world_run_ledger pre w0 suf hled
    cases suf with
    | nil => exact absurd rfl hne
    | cons e es =>
      obtain ⟨lp2, h3, _, h4, h5, h6⟩ := ledger_loop_alive h2
      exact ⟨w, lp2, h1, h3, h4, h5, h6⟩
  · obtain ⟨w, h1, h2⟩ := world_run_ledger evs w0 [] (by simpa using hled)
    exact ⟨w, h1, ledger_done h2⟩

/-- Instance of C7: a stdio and a child stream, the loop deleted while both
are allocated. -/
theorem loop_teardown_at_last_release_witness :
    (∃ lp, sample_world.loop = some lp ∧ lp.refcount = [false, true].length + 1)
    ∧ (∀ pre suf,
        [LoopEvent.stream_decref 1, .stream_decref 0, .loop_delete, .stream_decref 0,
          .stream_decref 1, .stream_decref 1, .stream_decref 0, .stream_decref 1]
          = pre ++ suf → suf ≠ [] →
        ∃ w lp, world_run sample_world pre = some w ∧ w.loop = some lp ∧ 1 ≤ lp.refcount
          ∧ w.trace.count .loop_close = 0 ∧ w.trace.count .free_loop = 0)
    ∧ (∃ w, world_run sample_world
          [.stream_decref 1, .stream_decref 0, .loop_delete, .stream_decref 0,
            .stream_decref 1, .stream_decref 1, .stream_decref 0, .stream_decref 1]
          = some w ∧ w.loop = none ∧ live w.streams = 0
          ∧ w.trace.count .loop_close = 1 ∧ w.trace.count .free_loop = 1) :=
  loop_teardown_at_last_release (L := sample_lua) [false, true] sample_world
    [.stream_decref 1, .stream_decref 0, .loop_delete, .stream_decref 0,
      .stream_decref 1, .stream_decref 1, .stream_decref 0, .stream_decref 1]
    (by decide) (by decide) (by decide) (by decide)

/-! ## Supplements -/

/-- From every state that the ledger allows before the host release, an
explicit `close` returns and leaves the stream allocated and closed, so that a
second `close` makes no change. -/
theorem close_twice_before_release {l : UVLoop} {tr0 : List Action} {s : State}
    (hl : 1 ≤ l.refcount) (h : Lifecycle l tr0 false s)
    (args args2 : List LuaValue) (drain polls drain2 polls2 : Nat) :
    ∃ s1, stream_close L s (stream_ud :: args) drain polls = .ok s1
      ∧ s1.stream.isSome = true
      ∧ stream_close L s1 (stream_ud :: args2) drain2 polls2 = .ok s1 := by
  obtain ⟨s1, h1, h2⟩ := step_lifecycle (L := L) (e := .close args drain polls) hl h rfl
  simp only [step] at h1
  obtain ⟨ext, _, hm⟩ := h2
  cases hst : s1.stream with
  | none =>
    rw [hst] at hm
    simp [Event.is_delete] at hm
  | some st1 =>
    have hc := stream_close_closed h1 st1 hst
    refine ⟨s1, h1, by simp [hst], ?_⟩
    unfold stream_close
    simp [checkstream_stream_ud, hst, hc]

theorem checkstream_of_checkloop {stack : List LuaValue} (more : List LuaValue)
    (h : checkloop stack = true) : checkstream (stack ++ more) = false := by
  cases stack with
  | nil => simp [checkloop, luaL_checkudata, lua_index] at h
  | cons v rest =>
    cases v with
    | userdata mt =>
      cases mt with
      | none => simp [checkloop, luaL_checkudata, lua_index] at h
      | some m =>
        cases m with
        | Loop => simp [checkstream, luaL_checkudata, lua_index]
        | Stream => simp [checkloop, luaL_checkudata, lua_index] at h
    | _ => simp [checkloop, luaL_checkudata, lua_index] at h

/-- Every pipe-open failure in `loop_stdio` ends in the type error raised by
`checkstream` inside the unwinding `stream_close`: the stream is left
allocated with refcount 2, not closed, and the loop keeps the extra
reference. -/
theorem loop_stdio_failure (s : State) (l : UVLoop) (stack : List LuaValue)
    (open_in open_out : Int) (drain polls : Nat) (hck : checkloop stack = true)
    (hl : s.loop = some l) (hfail : open_in ≠ 0 ∨ open_out ≠ 0) :
    ∃ tr, loop_stdio L s stack open_in open_out drain polls
        = .error
            { s with
              loop := some { l with refcount := l.refcount + 1 }
              stream := some { type := .StreamTypeStdio, refcount := 2, reading := false
                               active := false, closed := false, exited := false }
              trace := s.trace ++ tr }
            (.type_error 1)
      ∧ tr.count (.uv_close .sink) = 0 ∧ tr.count .free_stream = 0 := by
  have hcs := checkstream_of_checkloop [LuaValue.userdata none] hck
  unfold loop_stdio
  by_cases hin : open_in = 0
  · have hout : open_out ≠ 0 := by
      rcases hfail with h | h
      · exact absurd hin h
      · exact h
    exact ⟨[.uv_pipe_open 0, .uv_pipe_open 1],
      by simp [hck, hl, hin, hout, stream_close, hcs, Res.andThen], by simp, by simp⟩
  · exact ⟨[.uv_pipe_open 0],
      by simp [hck, hl, hin, stream_close, hcs, Res.andThen], by simp, by simp⟩

theorem spawn_argv_strings (strs : List String) : ∀ pre : List LuaValue,
    spawn_argv (.table (pre ++ strs.map LuaValue.string))
        (List.range' (pre.length + 1) strs.length)
      = .ok strs := by
  induction strs with
  | nil => intro pre; rfl
  | cons str rest ih =>
    intro pre
    have hget : lua_gettable (.table (pre ++ LuaValue.string str :: rest.map LuaValue.string))
        (pre.length + 1) = some (.string str) := by
      have : (pre ++ LuaValue.string str :: rest.map LuaValue.string)[pre.length]?
          = some (.string str) := by
        rw [List.getElem?_append_right (le_refl _)]
        simp
      simp [lua_gettable, List.getD, this]
    rw [List.length_cons, List.range'_succ, List.map_cons]
    unfold spawn_argv
    rw [hget]
    have := ih (pre ++ [.string str])
    simp only [List.append_assoc, List.singleton_append, List.length_append,
      List.length_singleton] at this
    simp only [this]

/-- Every `uv_spawn` failure in `loop_spawn` (called with a non-empty argv of
strings) ends in the type error raised by `checkstream` inside the unwinding
`stream_close`: the stream is left allocated with refcount 2, not closed, and
the loop keeps the extra reference. -/
theorem loop_spawn_failure (s : State) (l : UVLoop) (strs : List String)
    (status : Int) (drain polls : Nat) (hl : s.loop = some l) (hne : strs ≠ [])
    (hfail : status ≠ 0) :
    loop_spawn L s [loop_ud, .table (strs.map LuaValue.string)] status drain polls
      = .error
          { s with
            loop := some { l with refcount := l.refcount + 1 }
            stream := some { type := .StreamTypeChild, refcount := 2, reading := false
                             active := false, closed := false, exited := true }
            trace := s.trace ++ [.uv_spawn strs] }
          (.type_error 1) := by
  have hck : checkloop [loop_ud, .table (strs.map LuaValue.string)] = true := by
    simp [checkloop, luaL_checkudata, lua_index, loop_ud]
  have hcs : checkstream
      [loop_ud, .table (strs.map LuaValue.string), LuaValue.userdata none] = false := by
    simp [checkstream, luaL_checkudata, lua_index, loop_ud]
  have hargv := spawn_argv_strings strs []
  simp only [List.nil_append, List.length_nil, Nat.zero_add] at hargv
  have hlen : ¬ strs.length = 0 := by simpa using hne
  unfold loop_spawn
  simp [hck, lua_index, lua_top, lua_objlen, hlen, hargv, hl, hfail, stream_close, hcs,
    Res.andThen]

end NvimUv
